import Mathlib

/-!
Verification of the generic query-translation engine of stelace/sharinplace
(source file: the query util module exporting performListQuery,
performAggregationQuery and performHistoryQuery).

The JavaScript code is shallowly embedded: JS values are modelled by the
inductive `JVal`, JS objects by association lists, the Knex query builder by
an explicit record of accumulated predicates and clauses, and exceptions by
`Except Err`.  In-place mutations performed by the source (the `gte` injection
into a range value, the `dbField` overwrite on the time filter) are modelled
by explicit state passing: the embedded functions return the updated maps.
-/

/-- A JavaScript runtime value, restricted to the shapes the engine handles:
`undefined`, `null`, booleans, numbers (modelled as rationals), strings,
arrays and plain objects (ordered key/value lists, keys unique in practice).
`NaN` and exotic objects are outside the model. -/
inductive JVal where
  | undef : JVal
  | null : JVal
  | bool : Bool → JVal
  | num : ℚ → JVal
  | str : String → JVal
  | arr : List JVal → JVal
  | obj : List (String × JVal) → JVal

/-- lodash `_.isUndefined`. -/
def JVal.isUndef : JVal → Bool
  | .undef => true
  | _ => false

/-- lodash `_.isPlainObject`: true exactly for plain objects (not arrays). -/
def JVal.isPlainObject : JVal → Bool
  | .obj _ => true
  | _ => false

/-- lodash `_.isNumber`. -/
def JVal.isNum : JVal → Bool
  | .num _ => true
  | _ => false

/-- lodash `_.isString`. -/
def JVal.isStr : JVal → Bool
  | .str _ => true
  | _ => false

/-- JS truthiness: `undefined`, `null`, `false`, `0` and the empty string are
falsy; every array and object is truthy. (`NaN` is outside the model.) -/
def JVal.truthy : JVal → Bool
  | .undef => false
  | .null => false
  | .bool b => b
  | .num q => if q = 0 then false else true
  | .str s => if s = "" then false else true
  | .arr _ => true
  | .obj _ => true

/-- Lexicographic order on character lists, as JS compares strings. -/
def charsLt : List Char → List Char → Bool
  | [], [] => false
  | [], _ :: _ => true
  | _ :: _, [] => false
  | a :: as, b :: bs => if a < b then true else if b < a then false else charsLt as bs

/-- The JS relational operator `<` as the engine uses it: numbers compare
numerically, strings lexicographically (the engine compares date strings this
way).  Every mixed-type or non-primitive comparison evaluates to `false`,
matching JS comparisons that involve `undefined`/`NaN`. -/
def jsLt (a b : JVal) : Bool :=
  match a, b with
  | .num x, .num y => decide (x < y)
  | .str x, .str y => charsLt x.data y.data
  | _, _ => false

/-- First value bound to key `k` in an association list (JS object property
lookup; JS object keys are unique). -/
def lookupEntry {α : Type} : List (String × α) → String → Option α
  | [], _ => none
  | (k', v) :: rest, k => if k' = k then some v else lookupEntry rest k

/-- JS property assignment on an object modelled as an association list:
replace the first entry with key `k` in place, or append a new entry. -/
def setEntry {α : Type} : List (String × α) → String → α → List (String × α)
  | [], k, v => [(k, v)]
  | (k', v') :: rest, k, v =>
    if k' = k then (k, v) :: rest else (k', v') :: setEntry rest k v

/-- JS `delete o[k]`. -/
def removeEntry {α : Type} (l : List (String × α)) (k : String) : List (String × α) :=
  l.filter (fun p => decide (p.1 ≠ k))

/-- JS property read on a value: `undefined` off non-objects and missing keys. -/
def JVal.getField (v : JVal) (k : String) : JVal :=
  match v with
  | .obj fields => (lookupEntry fields k).getD .undef
  | _ => (.undef)

/-- JS property write on a value.  Writing a property of a primitive is a
silent no-op (non-strict mode), as in the source runtime. -/
def JVal.setField (v : JVal) (k : String) (x : JVal) : JVal :=
  match v with
  | .obj fields => .obj (setEntry fields k x)
  | _ => v

/-- Decimal-ish rendering of a rational, used when the engine interpolates a
number into an error message; integers print like JS integers. -/
def ratShow (q : ℚ) : String :=
  if q.den = 1 then toString q.num else toString q.num ++ "/" ++ toString q.den

/-- JS template-literal string conversion of a value (`String(v)`), for the
error messages the engine builds. -/
def jvalShow : JVal → String
  | .undef => "undefined"
  | .null => "null"
  | .bool true => "true"
  | .bool false => "false"
  | .num q => ratShow q
  | .str s => s
  | .arr xs => String.intercalate "," (xs.attach.map (fun x => jvalShow x.1))
  | .obj _ => "[object Object]"
decreasing_by
  simp_wf
  have := List.sizeOf_lt_of_mem x.2
  omega

/-- The errors the engine can raise, separated by their JS class:
`httpError` for `createError(status, msg)` (http-errors), `validationError`
for Joi schema failures thrown by the `check*` helpers, `genericError` for
plain `new Error(msg)`, `typeError` for runtime TypeErrors, and `dbError`
for PostgreSQL errors re-thrown unchanged (identified by their code). -/
inductive Err where
  | httpError : Nat → String → Err
  | validationError : String → Err
  | genericError : String → Err
  | typeError : String → Err
  | dbError : String → Err
deriving DecidableEq

/-- One WHERE-clause condition appended to the query builder. -/
inductive Predicate where
  | whereEq : String → JVal → Predicate
  | whereOp : String → String → JVal → Predicate
  | whereIn : String → JVal → Predicate
  | whereRaw : String → String → JVal → Predicate
  | whereNotNull : String → Predicate

/-- The subset of the Knex query-builder state the engine manipulates:
raw select fragments with their bound parameters, the FROM reference,
accumulated predicates, GROUP BY columns, ORDER BY pairs, and pagination. -/
structure QueryBuilder where
  selects : List (String × List String) := []
  fromRef : Option String := none
  preds : List Predicate := []
  groupBys : List String := []
  orderBys : List (JVal × JVal) := []
  countStar : Bool := false
  aggregates : List (String × String) := []
  offset : Option Nat := none
  limit : Option Nat := none

/-- `queryBuilder.where(...)` and friends: append predicates. -/
def QueryBuilder.addPreds (qb : QueryBuilder) (ps : List Predicate) : QueryBuilder :=
  { qb with preds := qb.preds ++ ps }

/-- A map of normalized filter values (JS object keyed by filter name). -/
abbrev Values := List (String × JVal)

/-- A result row, as the database driver returns it (a JS object). -/
abbrev Row := List (String × JVal)

/-- Value bound to key `k` in a values/row object, `undefined` when absent. -/
def lookupField (l : List (String × JVal)) (k : String) : JVal :=
  (lookupEntry l k).getD (.undef)

/-- The `transformValue` field of a FilterSpec: absent, the string tag
`'array'`, or a custom function. -/
inductive TransformValue where
  | undef : TransformValue
  | array : TransformValue
  | fn : (JVal → JVal) → TransformValue

/-- The `query` field of a FilterSpec: absent (equality), one of the string
strategies `'range' | 'inList' | 'jsonSupersetOf'`, or a custom function
receiving the query builder, the normalized value and all normalized values.
A custom function is modelled as returning the updated builder (its possible
mutations of the values map are not tracked). -/
inductive QuerySpec where
  | undef : QuerySpec
  | range : QuerySpec
  | inList : QuerySpec
  | jsonSupersetOf : QuerySpec
  | fn : (QueryBuilder → JVal → Values → Except Err QueryBuilder) → QuerySpec

def QuerySpec.isFn : QuerySpec → Bool
  | .fn _ => true
  | _ => false

/-- One filter specification, as accepted by `filtersSchema`.  An absent
`dbField` is modelled as the empty string, which is equally falsy in the
source's `!dbField` check. -/
structure FilterSpec where
  dbField : String := ""
  value : JVal := .undef
  minValue : JVal := .undef
  defaultValue : JVal := .undef
  transformValue : TransformValue := .undef
  query : QuerySpec := (.undef)

/-- Modelled from the spec: `parseArrayValues` lives in `src/util/list`, which
is absent from the sources.  Per section 4.1 the raw value (a delimited string
or already an array) is parsed into a sequence; `undefined` passes through
(optional filter), and a non-array-like value fails with a configuration
error identifying no usable shape. -/
def parseArrayValues : JVal → Except Err JVal
  | .undef => .ok .undef
  | .arr xs => .ok (.arr xs)
  | .str s => .ok (.arr ((s.splitOn ",").map JVal.str))
  | _ => .error (.genericError "parseArrayValues: array-like value expected")

/-- `getTransformedValues`, body of the per-key loop: apply `transformValue`
(identity when absent), then fall back to `defaultValue` when the transformed
value is `undefined`.  The source's final `else throw` branch (unknown
transform) is unreachable here because `TransformValue` enumerates the
admissible shapes. -/
def transformOneValue (f : FilterSpec) : Except Err JVal :=
  let step : Except Err JVal :=
    match f.transformValue with
    | TransformValue.undef => .ok f.value
    | TransformValue.array => parseArrayValues f.value
    | TransformValue.fn g => .ok (g f.value)
  match step with
  | .error e => .error e
  | .ok nv => .ok (if nv.isUndef && !f.defaultValue.isUndef then f.defaultValue else nv)

/-- `getTransformedValues(filters)`: the map of normalized values, one entry
per filter key, in key order. -/
def getTransformedValues : List (String × FilterSpec) → Except Err Values
  | [] => .ok []
  | (key, f) :: rest =>
    match transformOneValue f with
    | .error e => .error e
    | .ok v =>
      match getTransformedValues rest with
      | .error e => .error e
      | .ok vs => .ok ((key, v) :: vs)

/-- `getMinRangeValue(rangeOrValue)`: `undefined` propagates, a non-object is
returned as is, and on a range object the smaller of `gt`/`gte` (or whichever
is present) is returned, `undefined` when neither is. -/
def getMinRangeValue (rangeOrValue : JVal) : JVal :=
  match rangeOrValue with
  | .undef => .undef
  | .obj _ =>
    let gt := rangeOrValue.getField "gt"
    let gte := rangeOrValue.getField "gte"
    if !gt.isUndef && !gte.isUndef then (if jsLt gt gte then gt else gte)
    else if !gt.isUndef then gt
    else if !gte.isUndef then gte
    else .undef
  | x => x

/-- `checkRangeFilter(value, key)`: validation against `rangeFilterSchema`.
The schema's first alternative is `Joi.any()`, so every defined value passes;
only `undefined` is rejected by the trailing `.required()` (the call site
never passes it).  The Joi message text is not reproduced. -/
def checkRangeFilter (v : JVal) (key : String) : Except Err Unit :=
  if v.isUndef then .error (.validationError ("Bad range filter " ++ key)) else .ok ()

/-- The four comparison emissions of the range strategy, in source order:
each of `lt`, `lte`, `gt`, `gte` yields a predicate only when its value is
truthy (so a `0` or `false` bound is silently dropped). -/
def rangePreds (dbField : String) (v : JVal) : List Predicate :=
  (if (v.getField "lt").truthy then [Predicate.whereOp dbField "<" (v.getField "lt")] else [])
    ++ (if (v.getField "lte").truthy then [Predicate.whereOp dbField "<=" (v.getField "lte")] else [])
    ++ (if (v.getField "gt").truthy then [Predicate.whereOp dbField ">" (v.getField "gt")] else [])
    ++ (if (v.getField "gte").truthy then [Predicate.whereOp dbField ">=" (v.getField "gte")] else [])

/-- The `query === 'range'` branch of `addFiltersToQueryBuilder`: validate the
shape, apply the `minValue` policy (reject a truthy lower bound below
`minValue`; inject `gte = minValue` into a range object carrying no lower
bound — an in-place mutation of the normalized value, modelled by returning
the updated values map), then emit the comparison predicates. -/
def applyRangeFilter (qb : QueryBuilder) (values : Values) (key : String)
    (f : FilterSpec) (transformedValue : JVal) : Except Err (QueryBuilder × Values) :=
  match checkRangeFilter transformedValue key with
  | .error e => .error e
  | .ok _ =>
    let minRangeValue := getMinRangeValue transformedValue
    if minRangeValue.truthy then
      if jsLt minRangeValue f.minValue then
        .error (.httpError 400 (key ++ " value cannot be lower than " ++ jvalShow f.minValue))
      else
        .ok (qb.addPreds (rangePreds f.dbField transformedValue), values)
    else
      if transformedValue.isPlainObject
          && (transformedValue.getField "gt").isUndef
          && (transformedValue.getField "gte").isUndef then
        let mutated := transformedValue.setField "gte" f.minValue
        .ok (qb.addPreds (rangePreds f.dbField mutated), setEntry values key mutated)
      else
        .ok (qb.addPreds (rangePreds f.dbField transformedValue), values)

/-- `whereJsonbColumnSupersetOf(queryBuilder, { columnName, data })`: the
column name is a `String` by construction (the source's `_.isString` guard);
a non-object `data` is a configuration error, otherwise a raw JSONB
containment predicate is appended. -/
def whereJsonbColumnSupersetOf (qb : QueryBuilder) (columnName : String)
    (data : JVal) : Except Err QueryBuilder :=
  if !data.isPlainObject then .error (.genericError "\x60data\x60 object expected")
  else .ok (qb.addPreds [Predicate.whereRaw "??::jsonb @> ?::jsonb" columnName data])

/-- The per-key body of `addFiltersToQueryBuilder`: skip the filter when its
normalized value is undefined; require `dbField` for every non-custom
strategy; then dispatch on the strategy (equality, range, inList,
jsonSupersetOf — which uses the raw `value`, bypassing transform/default —
or a custom function). -/
def applyFilter (qb : QueryBuilder) (values : Values) (key : String)
    (f : FilterSpec) : Except Err (QueryBuilder × Values) :=
  let transformedValue := lookupField values key
  if transformedValue.isUndef then .ok (qb, values)
  else if !f.query.isFn && f.dbField = "" then
    .error (.genericError ("dbField is needed for filter with key " ++ key))
  else
    match f.query with
    | QuerySpec.undef => .ok (qb.addPreds [Predicate.whereEq f.dbField transformedValue], values)
    | QuerySpec.range => applyRangeFilter qb values key f transformedValue
    | QuerySpec.inList => .ok (qb.addPreds [Predicate.whereIn f.dbField transformedValue], values)
    | QuerySpec.jsonSupersetOf =>
      match whereJsonbColumnSupersetOf qb f.dbField f.value with
      | .error e => .error e
      | .ok qb2 => .ok (qb2, values)
    | QuerySpec.fn g =>
      match g qb transformedValue values with
      | .error e => .error e
      | .ok qb2 => .ok (qb2, values)

/-- `addFiltersToQueryBuilder(queryBuilder, filters, transformedValues)`:
fold the per-key body over the filter entries in key order, threading the
builder and the (mutable in JS) values map. -/
def addFiltersToQueryBuilder :
    QueryBuilder → List (String × FilterSpec) → Values → Except Err (QueryBuilder × Values)
  | qb, [], values => .ok (qb, values)
  | qb, (key, f) :: rest, values =>
    match applyFilter qb values key f with
    | .error e => .error e
    | .ok (qb', values') => addFiltersToQueryBuilder qb' rest values'

/-- The `orderConfig` argument: `{ orderBy, order }`, both raw JS values so
that malformed configs are representable. -/
structure OrderConfig where
  orderBy : JVal := .undef
  order : JVal := (.undef)

/-- `orderConfigSchema` validity: `orderBy` a required string and `order` one
of `'asc' | 'desc'`. -/
def orderConfigValid (c : OrderConfig) : Bool :=
  c.orderBy.isStr
    && (match c.order with
        | .str s => if s = "asc" then true else if s = "desc" then true else false
        | _ => false)

/-- `checkOrderConfig(orderConfig)`: throw the Joi validation error on an
invalid shape (the Joi message text is not reproduced beyond its prefix). -/
def checkOrderConfig (c : OrderConfig) : Except Err Unit :=
  if orderConfigValid c then .ok () else .error (.validationError "Bad order config")

/-- The `paginationConfig` argument; the integer requirement of
`paginationConfigSchema` is carried by the `Nat` type. -/
structure PaginationConfig where
  page : Nat := 1
  nbResultsPerPage : Nat := 1

/-- `paginationConfigSchema` validity: `page >= 1` and `nbResultsPerPage >= 1`. -/
def paginationConfigValid (c : PaginationConfig) : Bool :=
  decide (1 <= c.page) && decide (1 <= c.nbResultsPerPage)

/-- `checkPaginationConfig(paginationConfig)`. -/
def checkPaginationConfig (c : PaginationConfig) : Except Err Unit :=
  if paginationConfigValid c then .ok () else .error (.validationError "Bad pagination config")

/-- `checkFilters(filters)`: validation against `filtersSchema`.  Every
structural constraint of the schema (known keys, admissible `transformValue`
and `query` shapes) holds by construction of `FilterSpec`; the one condition
that can fail on an embedded input is the schema's `.min(1)`: an empty
filters object is rejected. -/
def checkFilters (filters : List (String × FilterSpec)) : Except Err Unit :=
  match filters with
  | [] => .error (.validationError "Bad filters")
  | _ :: _ => .ok ()

/-- The pagination metadata object assembled for every paginated response. -/
structure PaginationMeta where
  nbResults : Nat := 0
  nbPages : Nat := 0
  page : Nat := 1
  nbResultsPerPage : Nat := 1
  results : List Row := []

/-- Modelled from the spec: `getPaginationMeta` lives in `src/util/list`,
which is absent from the sources.  Per section 3 (PageResult) it returns
`{ nbResults, nbPages, page, nbResultsPerPage }` with
`nbPages = ceil(nbResults / nbResultsPerPage)`; the caller then attaches
`results`. -/
def getPaginationMeta (nbResults nbResultsPerPage page : Nat) : PaginationMeta :=
  { nbResults := nbResults
    nbPages := (nbResults + nbResultsPerPage - 1) / nbResultsPerPage
    page := page
    nbResultsPerPage := nbResultsPerPage
    results := [] }

/-- JS `Array.prototype.slice(start, end)` for the in-range indices the
engine produces (negative indices never arise: `page >= 1`). -/
def jsSlice {α : Type} (start stop : Nat) (l : List α) : List α :=
  (l.drop start).take (stop - start)

/-- `getSqlExpression(attr)`: split a dotted/bracket-indexed path on
`.`, `[`, `]`, drop empties; a single segment is a quoted column, several
segments become a JSON path extraction on the first segment. -/
def getSqlExpression (attr : String) : String :=
  let parts := (attr.split (fun c => c = '.' || c = '[' || c = ']')).filter (fun s => decide (s ≠ ""))
  let column := parts.headD "undefined"
  if parts.length = 1 then "\"" ++ column ++ "\""
  else "\"" ++ column ++ "\"#>>\x27\x7b" ++ String.intercalate "," (parts.drop 1) ++ "\x7d\x27"

/-- Modelled from the spec: `roundDecimal` lives in `src/util/math`, which is
absent from the sources.  Per sections 4.5 and 8 it rounds its argument to
the given number of decimal digits, JS `Math.round` style (half toward
positive infinity): the result is `round (x * 10^p) / 10^p`, computed here on
the numerator/denominator representation so that it evaluates by reduction
(see `roundDecimal_eq` for the identification with the textbook formula). -/
def roundDecimal (x : ℚ) (p : Nat) : ℚ :=
  mkRat ((2 * x.num * ((10 ^ p : ℕ) : ℤ) + (x.den : ℤ)) / ((2 * x.den : ℕ) : ℤ)) (10 ^ p)

/-- JS `parseInt(v, 10)` as applied to a `count` cell: a numeric string is
read as an integer, a number is truncated toward zero.  (`NaN` outcomes are
outside the model; PostgreSQL count cells are decimal strings.) -/
def jsParseInt (v : JVal) : JVal :=
  match v with
  | .num q => .num (if q < 0 then q.ceil else q.floor)
  | .str s =>
    match s.toInt? with
    | some i => .num i
    | none => .num 0
  | _ => .num 0

/-- One step of the operators loop of the aggregation post-processing:
`if (_.isUndefined(clonedResult[op])) clonedResult[op] = null`. -/
def opStep (r : Row) (op : String) : Row :=
  if (lookupField r op).isUndef then setEntry r op .null else r

/-- The per-row post-processing of `performAggregationQuery` results:
attach `groupBy`, rename `groupByField` to `groupByValue`, coerce a truthy
`count` with `parseInt`, round a numeric `avg` to `avgPrecision` digits, and
default each of `avg`, `sum`, `min`, `max` to `null` when undefined. -/
def processAggregationRow (groupBy : String) (avgPrecision : Nat) (r : Row) : Row :=
  let r1 := setEntry r "groupBy" (JVal.str groupBy)
  let r2 := setEntry r1 "groupByValue" (lookupField r1 "groupByField")
  let r3 := removeEntry r2 "groupByField"
  let r4 :=
    if (lookupField r3 "count").truthy then setEntry r3 "count" (jsParseInt (lookupField r3 "count"))
    else r3
  let r5 :=
    match lookupField r4 "avg" with
    | JVal.num q => setEntry r4 "avg" (JVal.num (roundDecimal q avgPrecision))
    | _ => r4
  opStep (opStep (opStep (opStep r5 "avg") "sum") "min") "max"

/-- The aggregation query shape handed to the database: a WITH clause holding
the inner grouped subquery, plus the outer query over it. -/
structure AggQuery where
  withName : String := "aggregations"
  inner : QueryBuilder := {}
  outer : QueryBuilder := {}

/-- The named parameters of `performAggregationQuery`. -/
structure AggregationQueryInput where
  schema : String := "public"
  groupBy : String := ""
  field : Option String := none
  avgPrecision : Nat := 2
  filters : Option (List (String × FilterSpec)) := none
  paginationConfig : PaginationConfig := {}
  orderConfig : OrderConfig := {}

/-- The SQL-level failure translation of `performAggregationQuery`: the
PostgreSQL `invalid_text_representation` code (22P02), raised when a
non-number is cast to REAL, becomes a 422 client error naming the field
(`undefined` when no field was given, as the JS template prints it); every
other storage error is re-thrown unchanged. -/
def aggTranslateDbError {α : Type} (field : Option String) (code : String) : Except Err α :=
  if code = "22P02" then
    .error (.httpError 422
      ("Non-number value was found for field \"" ++ (match field with | some f => f | none => "undefined") ++ "\""))
  else .error (.dbError code)

/-- `performAggregationQuery`: validate order, filters and pagination
configs; reject `field === groupBy` with a 422; build the inner aggregation
subquery (grouped expression, count, and avg/sum/min/max of the REAL-cast
field when given) with the filters applied inside it; wrap it in the outer
query excluding null group keys; run the paginated query and the count
concurrently (`runQuery`/`runCount` stand for the awaited database
executions, returning rows or a PostgreSQL error code); then post-process
each row. -/
def performAggregationQuery (inp : AggregationQueryInput)
    (runQuery : AggQuery → Except String (List Row))
    (runCount : AggQuery → Except String Nat) : Except Err PaginationMeta :=
  match checkOrderConfig inp.orderConfig with
  | .error e => .error e
  | .ok _ =>
    match (match inp.filters with
           | some l => checkFilters l
           | none => .ok ()) with
    | .error e => .error e
    | .ok _ =>
      match checkPaginationConfig inp.paginationConfig with
      | .error e => .error e
      | .ok _ =>
        if inp.field = some inp.groupBy then
          .error (.httpError 422 (inp.groupBy ++ " cannot be field and groupBy at the same time"))
        else
          let sqlGroupByExpression := getSqlExpression inp.groupBy
          let sqlStatsFieldExpression := inp.field.map getSqlExpression
          let inner0 : QueryBuilder :=
            { fromRef := some (inp.schema ++ ".event")
              selects := [(sqlGroupByExpression ++ " as \"groupByField\"", [])]
              countStar := true
              groupBys := ["groupByField"]
              orderBys := [(inp.orderConfig.orderBy, inp.orderConfig.order)]
              aggregates :=
                match sqlStatsFieldExpression with
                | some e =>
                  [("avg", "(" ++ e ++ ")::REAL"), ("sum", "(" ++ e ++ ")::REAL"),
                   ("min", "(" ++ e ++ ")::REAL"), ("max", "(" ++ e ++ ")::REAL")]
                | none => [] }
          match (match inp.filters with
                 | none => .ok inner0
                 | some l =>
                   match getTransformedValues l with
                   | .error e => .error e
                   | .ok values =>
                     match addFiltersToQueryBuilder inner0 l values with
                     | .error e => .error e
                     | .ok (qbF, _) => .ok qbF : Except Err QueryBuilder) with
          | .error e => .error e
          | .ok inner =>
            let outer0 : QueryBuilder :=
              { fromRef := some "aggregations", preds := [Predicate.whereNotNull "groupByField"] }
            let baseQuery : AggQuery := { withName := "aggregations", inner := inner, outer := outer0 }
            let pagedQuery : AggQuery :=
              { baseQuery with outer :=
                { outer0 with
                  orderBys := [(inp.orderConfig.orderBy, inp.orderConfig.order)]
                  offset := some ((inp.paginationConfig.page - 1) * inp.paginationConfig.nbResultsPerPage)
                  limit := some inp.paginationConfig.nbResultsPerPage } }
            match runQuery pagedQuery, runCount baseQuery with
            | .error code, _ => aggTranslateDbError inp.field code
            | .ok _, .error code => aggTranslateDbError inp.field code
            | .ok results, .ok nbResults =>
              let meta := getPaginationMeta nbResults inp.paginationConfig.nbResultsPerPage
                inp.paginationConfig.page
              .ok { meta with
                    results := results.map (processAggregationRow inp.groupBy inp.avgPrecision) }

/-- The named parameters of `performHistoryQuery`. -/
structure HistoryQueryInput where
  schema : String := ""
  table : String := ""
  timeFilter : String := "createdDate"
  timeColumn : String := "createdTimestamp"
  secondaryFilter : Option String := none
  groupByViews : List (String × String) := []
  retentionLimitDate : JVal := .undef
  groupBy : String := ""
  filters : Option (List (String × FilterSpec)) := none
  paginationConfig : PaginationConfig := {}
  orderConfig : OrderConfig := {}

/-- `_.compact([timeFilter, secondaryFilter])`: the keys whose filters stay
available beyond the retention window, with falsy entries (absent secondary
filter, empty string) dropped. -/
def protectedFilterKeys (timeFilter : String) (secondaryFilter : Option String) : List String :=
  (if timeFilter = "" then [] else [timeFilter])
    ++ (match secondaryFilter with
        | some s => if s = "" then [] else [s]
        | none => [])

/-- `useOnlyNonTimeRestrictedFilters`: every filter key outside the protected
keys has an undefined raw `value`.  (JS object keys are unique, so iterating
the entries directly matches iterating `Object.keys`.) -/
def useOnlyNonTimeRestrictedFiltersOf (filters : List (String × FilterSpec))
    (timeFilter : String) (secondaryFilter : Option String) : Bool :=
  (filters.filter (fun p => !(protectedFilterKeys timeFilter secondaryFilter).contains p.1)).all
    (fun p => p.2.value.isUndef)

/-- Truthiness of the `secondaryFilter` parameter as the source tests it. -/
def secondaryTruthy (secondaryFilter : Option String) : Bool :=
  match secondaryFilter with
  | some s => !(s = "")
  | none => false

/-- The filters/retention prologue of `performHistoryQuery` (its first
`if (filters)` block): validate the filters, compute
`useOnlyNonTimeRestrictedFilters`, then unconditionally dereference
`filters[timeFilter].value` — a runtime TypeError when the time filter key is
absent — and reject with a 400 when the truthy lower time bound predates
`retentionLimitDate` while some non-protected filter is active. -/
def historyFiltersGuard (inp : HistoryQueryInput) : Except Err Bool :=
  match inp.filters with
  | none => .ok true
  | some l =>
    match checkFilters l with
    | .error e => .error e
    | .ok _ =>
      let useOnly := useOnlyNonTimeRestrictedFiltersOf l inp.timeFilter inp.secondaryFilter
      match lookupEntry l inp.timeFilter with
      | none => .error (.typeError "Cannot read properties of undefined (reading \x27value\x27)")
      | some tspec =>
        let minRangeValue := getMinRangeValue tspec.value
        if minRangeValue.truthy && jsLt minRangeValue inp.retentionLimitDate && !useOnly then
          .error (.httpError 400 ("All filters are disabled before " ++ jvalShow inp.retentionLimitDate))
        else .ok useOnly

/-- The raw select fragment of the history query (source lines building
`selectQuery`/`selectParams`): time bucket or view column, the
`AT TIME ZONE 'UTC'` alias, and the count expression. -/
def historySelect (useContinuousAggregate : Bool) (interval timeColumn groupBy : String)
    (secondaryFilter : Option String) : String × List String :=
  let first :=
    if useContinuousAggregate then ("??", [groupBy])
    else ("public.time_bucket(INTERVAL \x27" ++ interval ++ "\x27, ??)", [timeColumn])
  let q2 := first.1 ++ " AT TIME ZONE \x27UTC\x27 as ??"
  let p2 := first.2 ++ [groupBy]
  let q3 := q2 ++ ", "
  let q4 := q3 ++
    (if useContinuousAggregate then
      (if secondaryTruthy secondaryFilter then "sum(count)::REAL as count" else "count")
     else "count(*)")
  (q4, p2)

/-- `l` with the spec under key `k` updated by `g` (the other entries and the
order unchanged). -/
def updateSpecAt (l : List (String × FilterSpec)) (k : String)
    (g : FilterSpec → FilterSpec) : List (String × FilterSpec) :=
  l.map (fun p => if p.1 = k then (p.1, g p.2) else p)

/-- `_.pick(filters, keys)`: the entries of `l` under the given keys, in the
order of the keys. -/
def pickEntries (l : List (String × FilterSpec)) (keys : List String) :
    List (String × FilterSpec) :=
  keys.eraseDups.filterMap (fun k => (lookupEntry l k).map (fun s => (k, s)))

/-- The filters block of the history query body.  On the continuous-aggregate
path the source narrows the filters with `_.pick` — which shares the inner
spec objects with the caller's map — and then assigns
`newFilters[timeFilter].dbField = groupBy`, mutating the caller's spec
through that alias.  The embedding makes the heap effect explicit: the
`dbField` overwrite is applied to the caller-visible map, the picked map is
derived from it, and the caller-visible map after the call is returned
alongside the builder.  (Aliasing of the raw `value` objects themselves is
not tracked.) -/
def historyApplyFilters (inp : HistoryQueryInput) (qb : QueryBuilder)
    (useContinuousAggregate : Bool) :
    Except Err (QueryBuilder × Option (List (String × FilterSpec))) :=
  match inp.filters with
  | none => .ok (qb, none)
  | some l =>
    let callerFilters :=
      if useContinuousAggregate then
        updateSpecAt l inp.timeFilter (fun s => { s with dbField := inp.groupBy })
      else l
    let newFilters :=
      if useContinuousAggregate then
        pickEntries callerFilters ([inp.timeFilter] ++ inp.secondaryFilter.toList)
      else callerFilters
    match getTransformedValues newFilters with
    | .error e => .error e
    | .ok values =>
      match addFiltersToQueryBuilder qb newFilters values with
      | .error e => .error e
      | .ok (qb', _) => .ok (qb', some callerFilters)

/-- The body of `performHistoryQuery` after the config checks: validate
`groupBy`, pick the continuous-aggregate view or the raw table, build the
select and the grouping, apply the (possibly narrowed) filters, order, run
the full query, and paginate in memory by slicing the result list. -/
def historyMainQuery (inp : HistoryQueryInput) (runQuery : QueryBuilder → List Row)
    (useOnly : Bool) :
    Except Err (PaginationMeta × Option (List (String × FilterSpec))) :=
  if (["hour", "day", "month"].contains inp.groupBy) = false then
    .error (.genericError ("Invalid groupBy value: " ++ inp.groupBy))
  else
    let interval :=
      if inp.groupBy = "hour" then "1 hour"
      else if inp.groupBy = "day" then "1 day"
      else "30 days"
    let view := lookupEntry inp.groupByViews inp.groupBy
    let useContinuousAggregate := useOnly && view.isSome
    let select := historySelect useContinuousAggregate interval inp.timeColumn inp.groupBy
      inp.secondaryFilter
    let qb1 : QueryBuilder :=
      { selects := [select]
        fromRef := some (inp.schema ++ "." ++
          (if useContinuousAggregate then view.getD inp.table else inp.table))
        groupBys :=
          if !useContinuousAggregate || (useContinuousAggregate && secondaryTruthy inp.secondaryFilter)
          then [inp.groupBy] else [] }
    match historyApplyFilters inp qb1 useContinuousAggregate with
    | .error e => .error e
    | .ok (qb2, postFilters) =>
      let qb3 := { qb2 with
        orderBys := qb2.orderBys ++ [(inp.orderConfig.orderBy, inp.orderConfig.order)] }
      let allResults := runQuery qb3
      let page := inp.paginationConfig.page
      let nbResultsPerPage := inp.paginationConfig.nbResultsPerPage
      let nbResults := allResults.length
      let results := jsSlice ((page - 1) * nbResultsPerPage) (page * nbResultsPerPage) allResults
      let meta := { getPaginationMeta nbResults nbResultsPerPage page with results := results }
      .ok (meta, postFilters)

/-- `performHistoryQuery`: order-config check, the filters/retention guard,
the pagination check, then the main query body.  `runQuery` stands for the
awaited database execution of the final builder.  The second component of
the result is the caller's filters map as it stands after the call (the
source mutates it on the continuous-aggregate path). -/
def performHistoryQuery (inp : HistoryQueryInput) (runQuery : QueryBuilder → List Row) :
    Except Err (PaginationMeta × Option (List (String × FilterSpec))) :=
  match checkOrderConfig inp.orderConfig with
  | .error e => .error e
  | .ok _ =>
    match historyFiltersGuard inp with
    | .error e => .error e
    | .ok useOnly =>
      match checkPaginationConfig inp.paginationConfig with
      | .error e => .error e
      | .ok _ => historyMainQuery inp runQuery useOnly

/-- The predicate list described by the specification for a range filter: one
comparison per bound (`lt`, `lte`, `gt`, `gte`, in the source's emission
order) whose value is truthy.  Stated separately from `rangePreds` so the
source's emission code can be compared against the spec's description. -/
def truthyBoundPredicates (dbField : String) (v : JVal) : List Predicate :=
  ([("lt", "<"), ("lte", "<="), ("gt", ">"), ("gte", ">=")].filter
      (fun p => (v.getField p.1).truthy)).map
    (fun p => Predicate.whereOp dbField p.2 (v.getField p.1))

/-- A range filter on `price` with `minValue` 10 whose effective lower bound
is the falsy number 0 (strictly below `minValue`). -/
def flC1 : List (String × FilterSpec) :=
  [("price", { dbField := "price", value := JVal.obj [("gte", JVal.num 0)],
               minValue := JVal.num 10, query := QuerySpec.range })]

/-- The normalized values of `flC1`. -/
def valsC1 : Values := [("price", JVal.obj [("gte", JVal.num 0)])]

/-- A range filter spec with `minValue` 10 and a truthy lower bound 5. -/
def specMinC1 : FilterSpec :=
  { dbField := "price", value := JVal.obj [("gte", JVal.num 5)],
    minValue := JVal.num 10, query := QuerySpec.range }

/-- The normalized values for `specMinC1` under key `price`. -/
def valsMinC1 : Values := [("price", JVal.obj [("gte", JVal.num 5)])]

/-- A plain range filter spec (no `minValue`). -/
def specC2 : FilterSpec := { dbField := "d", query := QuerySpec.range }

/-- Normalized values holding a range object with a falsy `lt` bound (0) and
a truthy `gte` bound (5) under key `k`. -/
def valsC2 : Values := [("k", JVal.obj [("lt", JVal.num 0), ("gte", JVal.num 5)])]

/-- The builder produced by compiling `specC2` over `valsC2`. -/
def qbC2 : QueryBuilder := { preds := [Predicate.whereOp "d" ">=" (JVal.num 5)] }

/-- A range filter spec with `minValue` 10 whose value `{ lt: 50 }` carries
no lower bound. -/
def specC4 : FilterSpec :=
  { dbField := "score", value := JVal.obj [("lt", JVal.num 50)],
    minValue := JVal.num 10, query := QuerySpec.range }

/-- The normalized values for `specC4` under key `score`. -/
def valsC4 : Values := [("score", JVal.obj [("lt", JVal.num 50)])]

/-- An equality filter on `authorId`. -/
def specAuthor : FilterSpec := { dbField := "authorId", value := JVal.str "usr_1" }

/-- An equality filter with no raw value and no default (normalizes to
undefined). -/
def specNoValue : FilterSpec := { dbField := "label" }

/-- An equality filter on `targetId`. -/
def specTarget : FilterSpec := { dbField := "targetId", value := JVal.str "tgt_9" }

/-- The normalized values of the three-filter map used for the skip witness. -/
def valsC8 : Values :=
  [("authorId", JVal.str "usr_1"), ("label", JVal.undef), ("targetId", JVal.str "tgt_9")]

/-- The time filter of the history counterexample: its range value carries
the falsy lower bound `""` (which nevertheless precedes every nonempty date
string). -/
def specTimeFalsy : FilterSpec :=
  { dbField := "createdTimestamp", value := JVal.obj [("gte", JVal.str "")],
    query := QuerySpec.range }

/-- History filters with a falsy-lower-bound time filter and an active
author filter. -/
def flC3 : List (String × FilterSpec) := [("createdDate", specTimeFalsy), ("authorId", specAuthor)]

/-- History input whose time filter lower bound is the falsy `""` while the
author filter is active. -/
def inpC3 : HistoryQueryInput :=
  { schema := "s1", table := "event"
    retentionLimitDate := JVal.str "2020-01-01T00:00:00.000Z"
    groupBy := "day"
    filters := some flC3
    paginationConfig := { page := 1, nbResultsPerPage := 10 }
    orderConfig := { orderBy := JVal.str "day", order := JVal.str "desc" } }

/-- A database execution returning no rows. -/
def runNoRows : QueryBuilder → List Row := fun _ => []

/-- The pagination metadata of a zero-row page-1 query with 10 results per
page. -/
def metaEmpty10 : PaginationMeta :=
  { nbResults := 0, nbPages := 0, page := 1, nbResultsPerPage := 10, results := [] }

/-- The history time filter of the retention-guard witness: truthy lower
bound `2019-01-01`, predating the retention limit. -/
def specTimeEarly : FilterSpec :=
  { dbField := "createdTimestamp", value := JVal.obj [("gte", JVal.str "2019-01-01")],
    query := QuerySpec.range }

/-- History filters with a truthy early time bound and an active author
filter. -/
def flC3b : List (String × FilterSpec) := [("createdDate", specTimeEarly), ("authorId", specAuthor)]

/-- History input triggering the retention guard. -/
def inpC3b : HistoryQueryInput := { inpC3 with filters := some flC3b }

/-- Five one-column result rows. -/
def rowsC5 : List Row :=
  [[("day", JVal.str "d1")], [("day", JVal.str "d2")], [("day", JVal.str "d3")],
   [("day", JVal.str "d4")], [("day", JVal.str "d5")]]

/-- A database execution returning the five rows. -/
def runRowsC5 : QueryBuilder → List Row := fun _ => rowsC5

/-- Filterless history input asking for page 2 with 2 results per page. -/
def inpC5 : HistoryQueryInput :=
  { schema := "s1", table := "event", retentionLimitDate := JVal.str "2020-01-01",
    groupBy := "day", filters := none,
    paginationConfig := { page := 2, nbResultsPerPage := 2 },
    orderConfig := { orderBy := JVal.str "day", order := JVal.str "desc" } }

/-- The pagination metadata `inpC5` produces over the five rows. -/
def metaC5 : PaginationMeta :=
  { nbResults := 5, nbPages := 3, page := 2, nbResultsPerPage := 2,
    results := [[("day", JVal.str "d3")], [("day", JVal.str "d4")]] }

/-- Aggregation input with `field === groupBy`. -/
def inpC6 : AggregationQueryInput :=
  { groupBy := "authorId", field := some "authorId",
    paginationConfig := { page := 1, nbResultsPerPage := 10 },
    orderConfig := { orderBy := JVal.str "count", order := JVal.str "desc" } }

/-- An aggregation execution returning no rows. -/
def runAggNoRows : AggQuery → Except String (List Row) := fun _ => .ok []

/-- An aggregation count execution returning zero. -/
def runAggZero : AggQuery → Except String Nat := fun _ => .ok 0

/-- One raw aggregation row as the database would return it. -/
def rowsC7 : List Row :=
  [[("groupByField", JVal.str "a"), ("count", JVal.num 3), ("avg", JVal.num (mkRat 10 3)),
    ("sum", JVal.num 10), ("min", JVal.num 1), ("max", JVal.num 5)]]

/-- An aggregation execution returning `rowsC7`. -/
def runAggC7 : AggQuery → Except String (List Row) := fun _ => .ok rowsC7

/-- An aggregation count execution returning one. -/
def runAggOne : AggQuery → Except String Nat := fun _ => .ok 1

/-- Aggregation input grouping by `authorId` and aggregating `data.score`
with the default average precision. -/
def inpC7 : AggregationQueryInput :=
  { groupBy := "authorId", field := some "data.score", avgPrecision := 2,
    paginationConfig := { page := 1, nbResultsPerPage := 10 },
    orderConfig := { orderBy := JVal.str "count", order := JVal.str "desc" } }

/-- The post-processed row `inpC7` produces from `rowsC7`. -/
def rowC7 : Row :=
  [("count", JVal.num 3), ("avg", JVal.num (mkRat 333 100)), ("sum", JVal.num 10),
   ("min", JVal.num 1), ("max", JVal.num 5), ("groupBy", JVal.str "authorId"),
   ("groupByValue", JVal.str "a")]

/-- The pagination metadata `inpC7` produces. -/
def metaC7 : PaginationMeta :=
  { nbResults := 1, nbPages := 1, page := 1, nbResultsPerPage := 10, results := [rowC7] }

/-- The history time filter of the aliasing witness: a truthy recent bound. -/
def specTimeC9 : FilterSpec :=
  { dbField := "createdTimestamp", value := JVal.obj [("gte", JVal.str "2021-01-01")],
    query := QuerySpec.range }

/-- A history filters map holding only the time filter. -/
def flC9 : List (String × FilterSpec) := [("createdDate", specTimeC9)]

/-- History input taking the continuous-aggregate path: a `day` view exists
and only the time filter is active. -/
def inpC9 : HistoryQueryInput :=
  { schema := "s1", table := "event", retentionLimitDate := JVal.str "2020-01-01",
    groupBy := "day", groupByViews := [("day", "event_day_view")],
    filters := some flC9,
    paginationConfig := { page := 1, nbResultsPerPage := 10 },
    orderConfig := { orderBy := JVal.str "day", order := JVal.str "desc" } }

/-- History input whose non-empty filters map lacks the (default) time
filter key. -/
def inpC10 : HistoryQueryInput :=
  { schema := "s1", table := "event", retentionLimitDate := JVal.str "2020-01-01",
    groupBy := "day", filters := some [("authorId", specAuthor)],
    paginationConfig := { page := 1, nbResultsPerPage := 10 },
    orderConfig := { orderBy := JVal.str "day", order := JVal.str "desc" } }

theorem lookupEntry_setEntry_self {α : Type} (l : List (String × α)) (k : String) (v : α) :
    lookupEntry (setEntry l k v) k = some v := by
  induction l with
  | nil => simp [setEntry, lookupEntry]
  | cons hd t ih =>
    obtain ⟨k', v'⟩ := hd
    by_cases hk : k' = k
    · simp [setEntry, hk, lookupEntry]
    · simp [setEntry, hk, lookupEntry, ih]

theorem lookupEntry_setEntry_ne {α : Type} (l : List (String × α)) (k k' : String) (v : α)
    (h : k' ≠ k) : lookupEntry (setEntry l k v) k' = lookupEntry l k' := by
  have hne : ¬(k = k') := fun hh => h hh.symm
  induction l with
  | nil =>
    simp only [setEntry, lookupEntry]
    rw [if_neg hne]
  | cons hd t ih =>
    obtain ⟨k'', v''⟩ := hd
    by_cases hk : k'' = k
    · subst hk
      simp only [setEntry, if_pos rfl, lookupEntry]
      rw [if_neg hne, if_neg hne]
    · simp only [setEntry, if_neg hk, lookupEntry]
      by_cases hk2 : k'' = k'
      · rw [if_pos hk2, if_pos hk2]
      · rw [if_neg hk2, if_neg hk2]
        exact ih

theorem lookupEntry_mem {α : Type} {l : List (String × α)} {k : String} {v : α}
    (h : lookupEntry l k = some v) : (k, v) ∈ l := by
  induction l with
  | nil => simp [lookupEntry] at h
  | cons hd t ih =>
    obtain ⟨k', v'⟩ := hd
    by_cases hk : k' = k
    · subst hk
      simp [lookupEntry] at h
      subst h
      exact List.mem_cons_self _ _
    · simp only [lookupEntry, if_neg hk] at h
      exact List.mem_cons_of_mem _ (ih h)

theorem lookupEntry_some_ne_nil {α : Type} {l : List (String × α)} {k : String} {v : α}
    (h : lookupEntry l k = some v) : l ≠ [] := by
  intro hnil
  subst hnil
  simp [lookupEntry] at h

theorem jsLt_undef_right (x : JVal) : jsLt x JVal.undef = false := by
  cases x <;> rfl

theorem truthy_minRange_not_undef {v : JVal} (h : (getMinRangeValue v).truthy = true) :
    v.isUndef = false := by
  cases v <;> first
    | rfl
    | (exfalso; simp [getMinRangeValue, JVal.truthy] at h)

theorem rangePreds_eq_truthyBoundPredicates (d : String) (v : JVal) :
    rangePreds d v = truthyBoundPredicates d v := by
  cases h1 : (v.getField "lt").truthy <;> cases h2 : (v.getField "lte").truthy <;>
    cases h3 : (v.getField "gt").truthy <;> cases h4 : (v.getField "gte").truthy <;>
    simp [rangePreds, truthyBoundPredicates, h1, h2, h3, h4]

theorem truthyBoundPredicates_length_le (d : String) (v : JVal) :
    (truthyBoundPredicates d v).length ≤ 4 := by
  have hf := List.length_filter_le (fun p : String × String => (v.getField p.1).truthy)
    [("lt", "<"), ("lte", "<="), ("gt", ">"), ("gte", ">=")]
  simpa [truthyBoundPredicates] using hf

theorem applyFilter_skip (qb : QueryBuilder) (values : Values) (key : String) (f : FilterSpec)
    (h : lookupField values key = JVal.undef) :
    applyFilter qb values key f = .ok (qb, values) := by
  simp [applyFilter, h, JVal.isUndef]

theorem checkRangeFilter_ok {v : JVal} (key : String) (h : v.isUndef = false) :
    checkRangeFilter v key = .ok () := by
  simp [checkRangeFilter, h]

theorem applyRangeFilter_ok_values {qb : QueryBuilder} {values : Values} {key : String}
    {f : FilterSpec} {tv : JVal} {qb' : QueryBuilder} {values' : Values}
    (h : applyRangeFilter qb values key f tv = .ok (qb', values')) :
    values' = values ∨ ∃ m, values' = setEntry values key m := by
  unfold applyRangeFilter at h
  cases hc : checkRangeFilter tv key with
  | error e =>
    rw [hc] at h
    exact absurd h (by simp)
  | ok u =>
    rw [hc] at h
    dsimp only at h
    by_cases ht : (getMinRangeValue tv).truthy = true
    · rw [if_pos ht] at h
      by_cases hlt : jsLt (getMinRangeValue tv) f.minValue = true
      · rw [if_pos hlt] at h
        exact absurd h (by simp)
      · rw [if_neg hlt] at h
        simp only [Except.ok.injEq, Prod.mk.injEq] at h
        exact Or.inl h.2.symm
    · rw [if_neg ht] at h
      by_cases hm : (tv.isPlainObject && (tv.getField "gt").isUndef
          && (tv.getField "gte").isUndef) = true
      · rw [if_pos hm] at h
        simp only [Except.ok.injEq, Prod.mk.injEq] at h
        exact Or.inr ⟨_, h.2.symm⟩
      · rw [if_neg hm] at h
        simp only [Except.ok.injEq, Prod.mk.injEq] at h
        exact Or.inl h.2.symm

theorem applyFilter_ok_values {qb : QueryBuilder} {values : Values} {key : String}
    {f : FilterSpec} {qb' : QueryBuilder} {values' : Values}
    (h : applyFilter qb values key f = .ok (qb', values')) :
    values' = values ∨ ∃ m, values' = setEntry values key m := by
  unfold applyFilter at h
  by_cases hu : (lookupField values key).isUndef = true
  · rw [if_pos hu] at h
    simp only [Except.ok.injEq, Prod.mk.injEq] at h
    exact Or.inl h.2.symm
  · rw [if_neg hu] at h
    by_cases hc : (!f.query.isFn && decide (f.dbField = "")) = true
    · rw [if_pos hc] at h
      exact absurd h (by simp)
    · rw [if_neg hc] at h
      rcases hq : f.query with _ | _ | _ | _ | g <;> rw [hq] at h <;> dsimp only at h
      · simp only [Except.ok.injEq, Prod.mk.injEq] at h
        exact Or.inl h.2.symm
      · exact applyRangeFilter_ok_values h
      · simp only [Except.ok.injEq, Prod.mk.injEq] at h
        exact Or.inl h.2.symm
      · cases hw : whereJsonbColumnSupersetOf qb f.dbField f.value with
        | error e =>
          rw [hw] at h
          exact absurd h (by simp)
        | ok qb2 =>
          rw [hw] at h
          dsimp only at h
          simp only [Except.ok.injEq, Prod.mk.injEq] at h
          exact Or.inl h.2.symm
      · cases hg : g qb (lookupField values key) values with
        | error e =>
          rw [hg] at h
          exact absurd h (by simp)
        | ok qb2 =>
          rw [hg] at h
          dsimp only at h
          simp only [Except.ok.injEq, Prod.mk.injEq] at h
          exact Or.inl h.2.symm

theorem applyFilter_ok_other_keys {qb : QueryBuilder} {values : Values} {key : String}
    {f : FilterSpec} {qb' : QueryBuilder} {values' : Values}
    (h : applyFilter qb values key f = .ok (qb', values')) (k : String) (hk : k ≠ key) :
    lookupField values' k = lookupField values k := by
  rcases applyFilter_ok_values h with rfl | ⟨m, rfl⟩
  · rfl
  · simp [lookupField, lookupEntry_setEntry_ne _ _ _ _ hk]

theorem addFilters_append (qb : QueryBuilder) (l₁ l₂ : List (String × FilterSpec))
    (values : Values) :
    addFiltersToQueryBuilder qb (l₁ ++ l₂) values =
      match addFiltersToQueryBuilder qb l₁ values with
      | .error e => .error e
      | .ok (qb', values') => addFiltersToQueryBuilder qb' l₂ values' := by
  induction l₁ generalizing qb values with
  | nil => simp [addFiltersToQueryBuilder]
  | cons hd t ih =>
    obtain ⟨key, f⟩ := hd
    simp only [List.cons_append, addFiltersToQueryBuilder]
    cases h : applyFilter qb values key f with
    | error e => rfl
    | ok p =>
      obtain ⟨qb', values'⟩ := p
      exact ih qb' values'

theorem addFilters_singleton_ok {qb : QueryBuilder} {key : String} {f : FilterSpec}
    {values : Values} {qb' : QueryBuilder} {values' : Values} :
    addFiltersToQueryBuilder qb [(key, f)] values = .ok (qb', values')
      ↔ applyFilter qb values key f = .ok (qb', values') := by
  constructor
  · intro h
    simp only [addFiltersToQueryBuilder] at h
    cases ha : applyFilter qb values key f with
    | error e =>
      rw [ha] at h
      exact absurd h (by simp)
    | ok p =>
      obtain ⟨qb₂, values₂⟩ := p
      rw [ha] at h
      dsimp only [addFiltersToQueryBuilder] at h
      exact h
  · intro h
    simp only [addFiltersToQueryBuilder, h]

/-- The claim C8 theorem.  A filter whose normalized value is undefined is
skipped entirely: running the predicate compiler with the entry present gives
exactly the outcome (predicates, errors, value mutations) of running it with
the entry removed, whatever the other filters are. -/
theorem undefined_filter_skipped (qb : QueryBuilder) (values : Values)
    (l₁ l₂ : List (String × FilterSpec)) (key : String) (f : FilterSpec)
    (hv : lookupField values key = JVal.undef)
    (hk : ∀ p ∈ l₁, p.1 ≠ key) :
    addFiltersToQueryBuilder qb (l₁ ++ (key, f) :: l₂) values =
      addFiltersToQueryBuilder qb (l₁ ++ l₂) values := by
  induction l₁ generalizing qb values with
  | nil =>
    simp only [List.nil_append, addFiltersToQueryBuilder]
    rw [applyFilter_skip qb values key f hv]
  | cons hd t ih =>
    obtain ⟨k', f'⟩ := hd
    simp only [List.cons_append, addFiltersToQueryBuilder]
    cases h : applyFilter qb values k' f' with
    | error e => rfl
    | ok p =>
      obtain ⟨qb', values'⟩ := p
      have hne : key ≠ k' := fun hh => (hk (k', f') (List.mem_cons_self _ _)) hh.symm
      have hv' : lookupField values' key = JVal.undef := by
        rw [applyFilter_ok_other_keys h key hne]
        exact hv
      exact ih qb' values' hv' (fun p hp => hk p (List.mem_cons_of_mem _ hp))

/-- The claim C8 witness at a concrete three-filter map: the middle filter
(no raw value, no default) is skipped and the other two still apply. -/
theorem undefined_filter_skipped_witness :
    addFiltersToQueryBuilder {} [("authorId", specAuthor), ("label", specNoValue),
        ("targetId", specTarget)] valsC8 =
      addFiltersToQueryBuilder {} [("authorId", specAuthor), ("targetId", specTarget)] valsC8 :=
  undefined_filter_skipped {} valsC8 [("authorId", specAuthor)] [("targetId", specTarget)]
    "label" specNoValue rfl
    (by
      intro p hp
      rcases List.mem_singleton.mp hp with rfl
      decide)

theorem JVal.isUndef_iff {v : JVal} : v.isUndef = true ↔ v = JVal.undef := by
  cases v <;> simp [JVal.isUndef]

theorem isPlainObject_not_undef {v : JVal} (h : v.isPlainObject = true) : v.isUndef = false := by
  cases v <;> simp_all [JVal.isPlainObject, JVal.isUndef]

theorem JVal.getField_setField_self {v : JVal} (hobj : v.isPlainObject = true)
    (k : String) (x : JVal) : (v.setField k x).getField k = x := by
  cases v with
  | obj fields => simp [JVal.setField, JVal.getField, lookupEntry_setEntry_self]
  | undef => simp [JVal.isPlainObject] at hobj
  | null => simp [JVal.isPlainObject] at hobj
  | bool b => simp [JVal.isPlainObject] at hobj
  | num q => simp [JVal.isPlainObject] at hobj
  | str s => simp [JVal.isPlainObject] at hobj
  | arr xs => simp [JVal.isPlainObject] at hobj

theorem getMinRangeValue_no_lower {v : JVal} (hobj : v.isPlainObject = true)
    (hgt : (v.getField "gt").isUndef = true) (hgte : (v.getField "gte").isUndef = true) :
    getMinRangeValue v = JVal.undef := by
  cases v with
  | obj fields => simp [getMinRangeValue, hgt, hgte]
  | undef => simp [JVal.isPlainObject] at hobj
  | null => simp [JVal.isPlainObject] at hobj
  | bool b => simp [JVal.isPlainObject] at hobj
  | num q => simp [JVal.isPlainObject] at hobj
  | str s => simp [JVal.isPlainObject] at hobj
  | arr xs => simp [JVal.isPlainObject] at hobj

/-- The claim C1 counterexample.  A range filter with `minValue` 10 whose
effective lower bound is 0 — strictly below `minValue` — does NOT fail:
because `0` is falsy, the source's `if (minRangeValue)` skips the bound
check, and the compiler returns successfully having emitted no predicate. -/
theorem min_value_falsy_bound_counterexample :
    getTransformedValues flC1 = .ok valsC1
      ∧ jsLt (getMinRangeValue (lookupField valsC1 "price")) (JVal.num 10) = true
      ∧ addFiltersToQueryBuilder {} flC1 valsC1 = .ok ({}, valsC1) :=
  ⟨rfl, rfl, rfl⟩

/-- The claim C1 theorem as amended: when the effective lower bound of a
range filter is TRUTHY and strictly below `minValue`, the compiler fails with
the 400 client error and emits no predicate (the whole run errors), whatever
filters precede or follow. -/
theorem min_value_rejection (qb : QueryBuilder) (values : Values)
    (l₁ l₂ : List (String × FilterSpec)) (key : String) (f : FilterSpec)
    (qb₁ : QueryBuilder) (values₁ : Values)
    (hq : f.query = QuerySpec.range)
    (hdb : f.dbField ≠ "")
    (hpre : addFiltersToQueryBuilder qb l₁ values = .ok (qb₁, values₁))
    (htruthy : (getMinRangeValue (lookupField values₁ key)).truthy = true)
    (hlt : jsLt (getMinRangeValue (lookupField values₁ key)) f.minValue = true) :
    addFiltersToQueryBuilder qb (l₁ ++ (key, f) :: l₂) values =
      .error (.httpError 400 (key ++ " value cannot be lower than " ++ jvalShow f.minValue)) := by
  rw [addFilters_append, hpre]
  dsimp only
  simp only [addFiltersToQueryBuilder]
  have hnu : (lookupField values₁ key).isUndef = false := truthy_minRange_not_undef htruthy
  have happ : applyFilter qb₁ values₁ key f =
      .error (.httpError 400 (key ++ " value cannot be lower than " ++ jvalShow f.minValue)) := by
    unfold applyFilter
    rw [if_neg (by simp [hnu])]
    rw [if_neg (by simp [hq, QuerySpec.isFn, hdb])]
    rw [hq]
    dsimp only
    unfold applyRangeFilter
    rw [checkRangeFilter_ok key hnu]
    dsimp only
    rw [if_pos htruthy, if_pos hlt]
  rw [happ]

/-- The claim C1 amended-theorem witness: lower bound 5 (truthy) against
`minValue` 10 fails with the 400 error. -/
theorem min_value_rejection_witness :
    addFiltersToQueryBuilder {} [("price", specMinC1)] valsMinC1 =
      .error (.httpError 400 ("price" ++ " value cannot be lower than " ++ jvalShow (JVal.num 10))) :=
  min_value_rejection {} valsMinC1 [] [] "price" specMinC1 {} valsMinC1 rfl (by decide)
    rfl rfl rfl

/-- The claim C2 theorem.  Whenever the compiler processes a range filter
successfully, the predicates it appends are exactly one comparison per bound
of the in-flight normalized value (as left in the values map) whose value is
truthy — so `0`/`false` bounds are dropped — and number between zero and
four. -/
theorem range_filter_truthy_bounds (qb : QueryBuilder) (values : Values) (key : String)
    (f : FilterSpec) (qb' : QueryBuilder) (values' : Values)
    (hq : f.query = QuerySpec.range)
    (h : addFiltersToQueryBuilder qb [(key, f)] values = .ok (qb', values')) :
    qb'.preds = qb.preds ++ truthyBoundPredicates f.dbField (lookupField values' key)
      ∧ (truthyBoundPredicates f.dbField (lookupField values' key)).length ≤ 4 := by
  refine ⟨?_, truthyBoundPredicates_length_le _ _⟩
  have h' := addFilters_singleton_ok.mp h
  unfold applyFilter at h'
  by_cases hu : (lookupField values key).isUndef = true
  · rw [if_pos hu] at h'
    simp only [Except.ok.injEq, Prod.mk.injEq] at h'
    obtain ⟨h1, h2⟩ := h'
    subst h1
    subst h2
    rw [JVal.isUndef_iff.mp hu]
    simp [truthyBoundPredicates, JVal.getField, JVal.truthy]
  · rw [if_neg hu] at h'
    by_cases hc : (!f.query.isFn && decide (f.dbField = "")) = true
    · rw [if_pos hc] at h'
      exact absurd h' (by simp)
    · rw [if_neg hc] at h'
      rw [hq] at h'
      dsimp only at h'
      unfold applyRangeFilter at h'
      rw [checkRangeFilter_ok key (by simpa using hu)] at h'
      dsimp only at h'
      by_cases ht : (getMinRangeValue (lookupField values key)).truthy = true
      · rw [if_pos ht] at h'
        by_cases hlt : jsLt (getMinRangeValue (lookupField values key)) f.minValue = true
        · rw [if_pos hlt] at h'
          exact absurd h' (by simp)
        · rw [if_neg hlt] at h'
          simp only [Except.ok.injEq, Prod.mk.injEq] at h'
          obtain ⟨h1, h2⟩ := h'
          subst h1
          subst h2
          simp [QueryBuilder.addPreds, rangePreds_eq_truthyBoundPredicates]
      · rw [if_neg ht] at h'
        by_cases hm : ((lookupField values key).isPlainObject
            && ((lookupField values key).getField "gt").isUndef
            && ((lookupField values key).getField "gte").isUndef) = true
        · rw [if_pos hm] at h'
          simp only [Except.ok.injEq, Prod.mk.injEq] at h'
          obtain ⟨h1, h2⟩ := h'
          subst h1
          subst h2
          simp [QueryBuilder.addPreds, rangePreds_eq_truthyBoundPredicates,
            lookupField, lookupEntry_setEntry_self]
        · rw [if_neg hm] at h'
          simp only [Except.ok.injEq, Prod.mk.injEq] at h'
          obtain ⟨h1, h2⟩ := h'
          subst h1
          subst h2
          simp [QueryBuilder.addPreds, rangePreds_eq_truthyBoundPredicates]

/-- The claim C2 witness: a range value `{ lt: 0, gte: 5 }` compiles to the
single `>=` predicate (the `0` bound is dropped). -/
theorem range_filter_truthy_bounds_witness :
    qbC2.preds = ({} : QueryBuilder).preds ++ truthyBoundPredicates "d" (lookupField valsC2 "k")
      ∧ (truthyBoundPredicates "d" (lookupField valsC2 "k")).length ≤ 4 :=
  range_filter_truthy_bounds {} valsC2 "k" specC2 qbC2 valsC2 rfl rfl

/-- The claim C4 theorem.  A range filter declaring a `minValue` whose
normalized value is a range object supplying neither `gt` nor `gte` has
`gte = minValue` injected into the in-flight range object (visible in the
returned values map) before the comparison predicates are compiled from it;
when `minValue` is truthy the `>=` predicate for it is among the emitted
predicates. -/
theorem range_gte_injection (qb : QueryBuilder) (values : Values) (key : String) (f : FilterSpec)
    (hq : f.query = QuerySpec.range)
    (hdb : f.dbField ≠ "")
    (hmin : f.minValue.isUndef = false)
    (hobj : (lookupField values key).isPlainObject = true)
    (hgt : ((lookupField values key).getField "gt").isUndef = true)
    (hgte : ((lookupField values key).getField "gte").isUndef = true) :
    addFiltersToQueryBuilder qb [(key, f)] values =
        .ok (qb.addPreds (rangePreds f.dbField
            ((lookupField values key).setField "gte" f.minValue)),
          setEntry values key ((lookupField values key).setField "gte" f.minValue))
      ∧ (f.minValue.truthy = true →
          Predicate.whereOp f.dbField ">=" f.minValue ∈
            rangePreds f.dbField ((lookupField values key).setField "gte" f.minValue)) := by
  have hnu : (lookupField values key).isUndef = false := isPlainObject_not_undef hobj
  constructor
  · rw [addFilters_singleton_ok]
    unfold applyFilter
    rw [if_neg (by simp [hnu])]
    rw [if_neg (by simp [hq, QuerySpec.isFn, hdb])]
    rw [hq]
    dsimp only
    unfold applyRangeFilter
    rw [checkRangeFilter_ok key hnu]
    dsimp only
    rw [getMinRangeValue_no_lower hobj hgt hgte]
    rw [if_neg (by simp [JVal.truthy])]
    rw [if_pos (by simp [hobj, hgt, hgte])]
  · intro htr
    have hge : ((lookupField values key).setField "gte" f.minValue).getField "gte" = f.minValue :=
      JVal.getField_setField_self hobj "gte" f.minValue
    simp only [rangePreds, hge, if_pos htr]
    exact List.mem_append_right _ (List.mem_singleton_self _)

/-- The claim C4 witness: `minValue` 10 with normalized value `{ lt: 50 }`
compiles the value `{ lt: 50, gte: 10 }` and emits `< 50` and `>= 10`. -/
theorem range_gte_injection_witness :
    addFiltersToQueryBuilder {} [("score", specC4)] valsC4 =
        .ok ({ preds := [Predicate.whereOp "score" "<" (JVal.num 50),
                 Predicate.whereOp "score" ">=" (JVal.num 10)] },
          [("score", JVal.obj [("lt", JVal.num 50), ("gte", JVal.num 10)])])
      ∧ Predicate.whereOp "score" ">=" (JVal.num 10) ∈
          rangePreds "score" ((lookupField valsC4 "score").setField "gte" (JVal.num 10)) := by
  have h := range_gte_injection {} valsC4 "score" specC4 rfl (by decide) rfl rfl rfl rfl
  exact ⟨h.1, h.2 rfl⟩

theorem checkFilters_ok_of_ne_nil {l : List (String × FilterSpec)} (h : l ≠ []) :
    checkFilters l = .ok () := by
  cases l with
  | nil => exact absurd rfl h
  | cons a t => rfl

theorem checkOrderConfig_ok {c : OrderConfig} (h : orderConfigValid c = true) :
    checkOrderConfig c = .ok () := by
  simp [checkOrderConfig, h]

theorem checkPaginationConfig_ok {c : PaginationConfig} (h : paginationConfigValid c = true) :
    checkPaginationConfig c = .ok () := by
  simp [checkPaginationConfig, h]

/-- The claim C10 theorem.  With a valid order config and a non-empty filters
map lacking the time-filter key, `performHistoryQuery` fails with the runtime
TypeError from dereferencing `filters[timeFilter].value` — not with a
validation or configuration error. -/
theorem history_missing_time_filter_type_error (inp : HistoryQueryInput)
    (runQuery : QueryBuilder → List Row) (l : List (String × FilterSpec))
    (hord : orderConfigValid inp.orderConfig = true)
    (hf : inp.filters = some l)
    (hne : l ≠ [])
    (ht : lookupEntry l inp.timeFilter = none) :
    performHistoryQuery inp runQuery =
      .error (.typeError "Cannot read properties of undefined (reading \x27value\x27)") := by
  have hg : historyFiltersGuard inp =
      .error (.typeError "Cannot read properties of undefined (reading \x27value\x27)") := by
    unfold historyFiltersGuard
    rw [hf]
    dsimp only
    rw [checkFilters_ok_of_ne_nil hne]
    dsimp only
    rw [ht]
  unfold performHistoryQuery
  rw [checkOrderConfig_ok hord]
  dsimp only
  rw [hg]

/-- The claim C10 witness: a history call whose non-empty filters map has no
`createdDate` entry throws the TypeError. -/
theorem history_missing_time_filter_type_error_witness :
    performHistoryQuery inpC10 runNoRows =
      .error (.typeError "Cannot read properties of undefined (reading \x27value\x27)") :=
  history_missing_time_filter_type_error inpC10 runNoRows [("authorId", specAuthor)]
    rfl rfl (List.cons_ne_nil _ _) rfl

theorem jsSlice_page_length_le {α : Type} (page n : Nat) (hp : 1 ≤ page) (l : List α) :
    (jsSlice ((page - 1) * n) (page * n) l).length ≤ n := by
  have hmul : page * n = (page - 1) * n + n := by
    have h1 : page - 1 + 1 = page := Nat.succ_pred_eq_of_pos hp
    calc page * n = (page - 1 + 1) * n := by rw [h1]
      _ = (page - 1) * n + n := by rw [Nat.succ_mul]
  have hsub : (page - 1) * n + n - (page - 1) * n = n := by omega
  unfold jsSlice
  rw [hmul, hsub]
  exact List.length_take_le _ _

/-- The claim C5 theorem.  A successful history query paginates in memory:
there is a final query whose full result list gives `nbResults` as its
length, `results` as its `(page-1)*nbResultsPerPage .. page*nbResultsPerPage`
slice, and consequently `results.length <= nbResultsPerPage`. -/
theorem history_in_memory_pagination (inp : HistoryQueryInput)
    (runQuery : QueryBuilder → List Row) (meta : PaginationMeta)
    (fl : Option (List (String × FilterSpec)))
    (h : performHistoryQuery inp runQuery = .ok (meta, fl)) :
    ∃ qb : QueryBuilder,
      meta.nbResults = (runQuery qb).length
        ∧ meta.results =
            jsSlice ((inp.paginationConfig.page - 1) * inp.paginationConfig.nbResultsPerPage)
              (inp.paginationConfig.page * inp.paginationConfig.nbResultsPerPage) (runQuery qb)
        ∧ meta.results.length ≤ inp.paginationConfig.nbResultsPerPage := by
  unfold performHistoryQuery at h
  cases hc : checkOrderConfig inp.orderConfig with
  | error e =>
    rw [hc] at h
    exact absurd h (by simp)
  | ok u =>
    rw [hc] at h
    dsimp only at h
    cases hg : historyFiltersGuard inp with
    | error e =>
      rw [hg] at h
      exact absurd h (by simp)
    | ok useOnly =>
      rw [hg] at h
      dsimp only at h
      cases hp : checkPaginationConfig inp.paginationConfig with
      | error e =>
        rw [hp] at h
        exact absurd h (by simp)
      | ok u2 =>
        rw [hp] at h
        dsimp only at h
        have hpv : paginationConfigValid inp.paginationConfig = true := by
          by_cases hv : paginationConfigValid inp.paginationConfig = true
          · exact hv
          · simp [checkPaginationConfig, hv] at hp
        have hpage : 1 ≤ inp.paginationConfig.page := by
          have h2 := hpv
          simp [paginationConfigValid] at h2
          exact h2.1
        unfold historyMainQuery at h
        by_cases hgb : (["hour", "day", "month"].contains inp.groupBy) = false
        · rw [if_pos hgb] at h
          exact absurd h (by simp)
        · rw [if_neg hgb] at h
          dsimp only at h
          split at h
          · exact absurd h (by simp)
          · simp only [Except.ok.injEq, Prod.mk.injEq] at h
            obtain ⟨hmeta, hfl⟩ := h
            subst hmeta
            refine ⟨_, rfl, rfl, ?_⟩
            exact jsSlice_page_length_le _ _ hpage _

/-- The claim C5 witness: five result rows, page 2 with 2 per page — the
returned slice has at most 2 rows. -/
theorem history_in_memory_pagination_witness :
    metaC5.results.length ≤ inpC5.paginationConfig.nbResultsPerPage := by
  obtain ⟨qb, h1, h2, h3⟩ := history_in_memory_pagination inpC5 runRowsC5 metaC5 none rfl
  exact h3

theorem lookupEntry_updateSpecAt_self {l : List (String × FilterSpec)} {k : String}
    {tspec : FilterSpec} (g : FilterSpec → FilterSpec)
    (h : lookupEntry l k = some tspec) :
    lookupEntry (updateSpecAt l k g) k = some (g tspec) := by
  induction l with
  | nil => simp [lookupEntry] at h
  | cons hd t ih =>
    obtain ⟨k', s⟩ := hd
    by_cases hk : k' = k
    · subst hk
      simp [lookupEntry] at h
      subst h
      have hmap : updateSpecAt ((k', s) :: t) k' g = (k', g s) :: updateSpecAt t k' g := by
        simp [updateSpecAt, List.map_cons]
      rw [hmap]
      simp [lookupEntry]
    · have hmap : updateSpecAt ((k', s) :: t) k g = (k', s) :: updateSpecAt t k g := by
        simp only [updateSpecAt, List.map_cons]
        rw [if_neg hk]
      rw [hmap]
      simp only [lookupEntry]
      rw [if_neg hk]
      apply ih
      simp only [lookupEntry] at h
      rwa [if_neg hk] at h

theorem historyFiltersGuard_ok_val {inp : HistoryQueryInput} {l : List (String × FilterSpec)}
    {useOnly : Bool} (hf : inp.filters = some l)
    (hg : historyFiltersGuard inp = .ok useOnly) :
    useOnly = useOnlyNonTimeRestrictedFiltersOf l inp.timeFilter inp.secondaryFilter := by
  unfold historyFiltersGuard at hg
  rw [hf] at hg
  dsimp only at hg
  cases hcf : checkFilters l with
  | error e =>
    rw [hcf] at hg
    exact absurd hg (by simp)
  | ok u =>
    rw [hcf] at hg
    dsimp only at hg
    cases ht : lookupEntry l inp.timeFilter with
    | none =>
      rw [ht] at hg
      exact absurd hg (by simp)
    | some ts =>
      rw [ht] at hg
      dsimp only at hg
      split at hg
      · exact absurd hg (by simp)
      · simp only [Except.ok.injEq] at hg
        exact hg.symm

theorem historyApplyFilters_ok_postFilters {inp : HistoryQueryInput} {qb : QueryBuilder}
    {uca : Bool} {qb' : QueryBuilder} {postF : Option (List (String × FilterSpec))}
    {l : List (String × FilterSpec)}
    (hf : inp.filters = some l)
    (h : historyApplyFilters inp qb uca = .ok (qb', postF)) :
    postF = some (if uca then
        updateSpecAt l inp.timeFilter (fun s => { s with dbField := inp.groupBy })
      else l) := by
  unfold historyApplyFilters at h
  rw [hf] at h
  dsimp only at h
  split at h
  · exact absurd h (by simp)
  · split at h
    · exact absurd h (by simp)
    · simp only [Except.ok.injEq, Prod.mk.injEq] at h
      exact h.2.symm

/-- The claim C9 theorem.  When the continuous-aggregate path is taken (a
view exists for `groupBy`, only time/secondary filters are active) and the
call succeeds, the caller's filters map comes back with the time filter's
`dbField` overwritten by `groupBy` — the `_.pick` sub-map aliases the
caller's spec objects, so the input FilterSpec is permanently changed. -/
theorem history_mutates_time_filter_dbField (inp : HistoryQueryInput)
    (runQuery : QueryBuilder → List Row) (l : List (String × FilterSpec))
    (tspec : FilterSpec) (v : String) (meta : PaginationMeta)
    (fl : Option (List (String × FilterSpec)))
    (hf : inp.filters = some l)
    (hview : lookupEntry inp.groupByViews inp.groupBy = some v)
    (huse : useOnlyNonTimeRestrictedFiltersOf l inp.timeFilter inp.secondaryFilter = true)
    (ht : lookupEntry l inp.timeFilter = some tspec)
    (h : performHistoryQuery inp runQuery = .ok (meta, fl)) :
    fl = some (updateSpecAt l inp.timeFilter (fun s => { s with dbField := inp.groupBy }))
      ∧ lookupEntry (updateSpecAt l inp.timeFilter (fun s => { s with dbField := inp.groupBy }))
          inp.timeFilter = some { tspec with dbField := inp.groupBy } := by
  refine ⟨?_, lookupEntry_updateSpecAt_self _ ht⟩
  unfold performHistoryQuery at h
  cases hc : checkOrderConfig inp.orderConfig with
  | error e =>
    rw [hc] at h
    exact absurd h (by simp)
  | ok u =>
    rw [hc] at h
    dsimp only at h
    cases hg : historyFiltersGuard inp with
    | error e =>
      rw [hg] at h
      exact absurd h (by simp)
    | ok useOnly =>
      have huseval : useOnly = true := (historyFiltersGuard_ok_val hf hg).trans huse
      subst huseval
      rw [hg] at h
      dsimp only at h
      cases hp : checkPaginationConfig inp.paginationConfig with
      | error e =>
        rw [hp] at h
        exact absurd h (by simp)
      | ok u2 =>
        rw [hp] at h
        dsimp only at h
        unfold historyMainQuery at h
        by_cases hgb : (["hour", "day", "month"].contains inp.groupBy) = false
        · rw [if_pos hgb] at h
          exact absurd h (by simp)
        · rw [if_neg hgb] at h
          dsimp only at h
          rw [hview] at h
          simp only [Option.isSome_some, Bool.true_and] at h
          split at h
          · exact absurd h (by simp)
          · rename_i qb2 postF heq
            simp only [Except.ok.injEq, Prod.mk.injEq] at h
            obtain ⟨hmeta, hfl⟩ := h
            subst hfl
            have hpost := historyApplyFilters_ok_postFilters hf heq
            simpa using hpost

/-- The claim C9 witness: with a `day` view and only the time filter active,
the caller's filters map comes back with the time filter's `dbField`
rewritten from `createdTimestamp` to `day`. -/
theorem history_mutates_time_filter_dbField_witness :
    (some [("createdDate", { specTimeC9 with dbField := "day" })]
        : Option (List (String × FilterSpec))) =
        some (updateSpecAt flC9 inpC9.timeFilter (fun s => { s with dbField := inpC9.groupBy }))
      ∧ lookupEntry (updateSpecAt flC9 inpC9.timeFilter
            (fun s => { s with dbField := inpC9.groupBy })) inpC9.timeFilter =
          some { specTimeC9 with dbField := inpC9.groupBy } :=
  history_mutates_time_filter_dbField inpC9 runNoRows flC9 specTimeC9 "event_day_view"
    metaEmpty10 (some [("createdDate", { specTimeC9 with dbField := "day" })]) rfl rfl rfl rfl rfl

theorem parseArrayValues_error_shape {v : JVal} {e : Err} (h : parseArrayValues v = .error e) :
    ∃ m, e = Err.genericError m := by
  cases v with
  | undef => simp [parseArrayValues] at h
  | arr xs => simp [parseArrayValues] at h
  | str s => simp [parseArrayValues] at h
  | null =>
    simp only [parseArrayValues, Except.error.injEq] at h
    exact ⟨_, h.symm⟩
  | bool b =>
    simp only [parseArrayValues, Except.error.injEq] at h
    exact ⟨_, h.symm⟩
  | num q =>
    simp only [parseArrayValues, Except.error.injEq] at h
    exact ⟨_, h.symm⟩
  | obj fields =>
    simp only [parseArrayValues, Except.error.injEq] at h
    exact ⟨_, h.symm⟩

theorem transformOneValue_error_shape {f : FilterSpec} {e : Err}
    (h : transformOneValue f = .error e) : ∃ m, e = Err.genericError m := by
  unfold transformOneValue at h
  cases htv : f.transformValue with
  | undef =>
    rw [htv] at h
    dsimp only at h
    exact absurd h (by simp)
  | array =>
    rw [htv] at h
    dsimp only at h
    cases hp : parseArrayValues f.value with
    | error e2 =>
      rw [hp] at h
      dsimp only at h
      simp only [Except.error.injEq] at h
      subst h
      exact parseArrayValues_error_shape hp
    | ok nv =>
      rw [hp] at h
      dsimp only at h
      exact absurd h (by simp)
  | fn g =>
    rw [htv] at h
    dsimp only at h
    exact absurd h (by simp)

theorem getTransformedValues_error_shape {fl : List (String × FilterSpec)} {e : Err}
    (h : getTransformedValues fl = .error e) : ∃ m, e = Err.genericError m := by
  induction fl with
  | nil => simp [getTransformedValues] at h
  | cons hd t ih =>
    obtain ⟨key, f⟩ := hd
    simp only [getTransformedValues] at h
    cases h1 : transformOneValue f with
    | error e2 =>
      rw [h1] at h
      dsimp only at h
      simp only [Except.error.injEq] at h
      subst h
      exact transformOneValue_error_shape h1
    | ok v =>
      rw [h1] at h
      dsimp only at h
      cases h2 : getTransformedValues t with
      | error e2 =>
        rw [h2] at h
        dsimp only at h
        simp only [Except.error.injEq] at h
        subst h
        exact ih h2
      | ok vs =>
        rw [h2] at h
        dsimp only at h
        exact absurd h (by simp)

theorem applyFilter_error_shape {qb : QueryBuilder} {values : Values} {key : String}
    {f : FilterSpec} {e : Err}
    (hfn : f.query.isFn = false) (hmin : f.minValue = JVal.undef)
    (h : applyFilter qb values key f = .error e) :
    (∃ m, e = Err.genericError m) ∨ (∃ m, e = Err.validationError m) := by
  unfold applyFilter at h
  by_cases hu : (lookupField values key).isUndef = true
  · rw [if_pos hu] at h
    exact absurd h (by simp)
  · rw [if_neg hu] at h
    by_cases hc : (!f.query.isFn && decide (f.dbField = "")) = true
    · rw [if_pos hc] at h
      simp only [Except.error.injEq] at h
      exact Or.inl ⟨_, h.symm⟩
    · rw [if_neg hc] at h
      rcases hq : f.query with _ | _ | _ | _ | g <;> rw [hq] at h <;> dsimp only at h
      · exact absurd h (by simp)
      · unfold applyRangeFilter at h
        rw [checkRangeFilter_ok key (by simpa using hu)] at h
        dsimp only at h
        by_cases ht : (getMinRangeValue (lookupField values key)).truthy = true
        · rw [if_pos ht] at h
          rw [hmin, jsLt_undef_right] at h
          rw [if_neg (by simp)] at h
          exact absurd h (by simp)
        · rw [if_neg ht] at h
          by_cases hm : ((lookupField values key).isPlainObject
              && ((lookupField values key).getField "gt").isUndef
              && ((lookupField values key).getField "gte").isUndef) = true
          · rw [if_pos hm] at h
            exact absurd h (by simp)
          · rw [if_neg hm] at h
            exact absurd h (by simp)
      · exact absurd h (by simp)
      · cases hw : whereJsonbColumnSupersetOf qb f.dbField f.value with
        | error e2 =>
          rw [hw] at h
          dsimp only at h
          simp only [Except.error.injEq] at h
          subst h
          unfold whereJsonbColumnSupersetOf at hw
          by_cases hd : (!f.value.isPlainObject) = true
          · rw [if_pos hd] at hw
            simp only [Except.error.injEq] at hw
            exact Or.inl ⟨_, hw.symm⟩
          · rw [if_neg hd] at hw
            exact absurd hw (by simp)
        | ok qb2 =>
          rw [hw] at h
          dsimp only at h
          exact absurd h (by simp)
      · rw [hq] at hfn
        simp [QuerySpec.isFn] at hfn

theorem addFilters_error_shape {qb : QueryBuilder} {values : Values}
    {fl : List (String × FilterSpec)} {e : Err}
    (hclean : ∀ p ∈ fl, p.2.query.isFn = false ∧ p.2.minValue = JVal.undef)
    (h : addFiltersToQueryBuilder qb fl values = .error e) :
    (∃ m, e = Err.genericError m) ∨ (∃ m, e = Err.validationError m) := by
  induction fl generalizing qb values with
  | nil => simp [addFiltersToQueryBuilder] at h
  | cons hd t ih =>
    obtain ⟨key, f⟩ := hd
    simp only [addFiltersToQueryBuilder] at h
    cases ha : applyFilter qb values key f with
    | error e2 =>
      rw [ha] at h
      dsimp only at h
      simp only [Except.error.injEq] at h
      subst h
      exact applyFilter_error_shape (hclean _ (List.mem_cons_self _ _)).1
        (hclean _ (List.mem_cons_self _ _)).2 ha
    | ok p =>
      obtain ⟨qb', values'⟩ := p
      rw [ha] at h
      dsimp only at h
      exact ih (fun p hp => hclean p (List.mem_cons_of_mem _ hp)) h

theorem pickEntries_mem {l : List (String × FilterSpec)} {ks : List String}
    {p : String × FilterSpec} (h : p ∈ pickEntries l ks) : p ∈ l := by
  unfold pickEntries at h
  rcases List.mem_filterMap.mp h with ⟨k, hk, hmap⟩
  cases hl : lookupEntry l k with
  | none =>
    rw [hl] at hmap
    simp at hmap
  | some s =>
    rw [hl] at hmap
    simp at hmap
    rw [← hmap]
    exact lookupEntry_mem hl

theorem clean_updateSpecAt {l : List (String × FilterSpec)} {k d : String}
    (hclean : ∀ p ∈ l, p.2.query.isFn = false ∧ p.2.minValue = JVal.undef) :
    ∀ p ∈ updateSpecAt l k (fun s => { s with dbField := d }),
      p.2.query.isFn = false ∧ p.2.minValue = JVal.undef := by
  intro p hp
  unfold updateSpecAt at hp
  rcases List.mem_map.mp hp with ⟨q, hq, hqe⟩
  by_cases hk : q.1 = k
  · rw [if_pos hk] at hqe
    rw [← hqe]
    exact ⟨(hclean q hq).1, (hclean q hq).2⟩
  · rw [if_neg hk] at hqe
    rw [← hqe]
    exact hclean q hq

theorem historyApplyFilters_error_shape {inp : HistoryQueryInput} {qb : QueryBuilder}
    {uca : Bool} {e : Err} {l : List (String × FilterSpec)}
    (hf : inp.filters = some l)
    (hclean : ∀ p ∈ l, p.2.query.isFn = false ∧ p.2.minValue = JVal.undef)
    (h : historyApplyFilters inp qb uca = .error e) :
    (∃ m, e = Err.genericError m) ∨ (∃ m, e = Err.validationError m) := by
  unfold historyApplyFilters at h
  rw [hf] at h
  dsimp only at h
  by_cases huca : uca = true
  · simp only [if_pos huca] at h
    have hcleanNew : ∀ p ∈ pickEntries
        (updateSpecAt l inp.timeFilter fun s => { s with dbField := inp.groupBy })
        ([inp.timeFilter] ++ inp.secondaryFilter.toList),
        p.2.query.isFn = false ∧ p.2.minValue = JVal.undef :=
      fun p hp => clean_updateSpecAt hclean p (pickEntries_mem hp)
    cases htv : getTransformedValues (pickEntries
        (updateSpecAt l inp.timeFilter fun s => { s with dbField := inp.groupBy })
        ([inp.timeFilter] ++ inp.secondaryFilter.toList)) with
    | error e2 =>
      rw [htv] at h
      dsimp only at h
      simp only [Except.error.injEq] at h
      subst h
      exact Or.inl (getTransformedValues_error_shape htv)
    | ok values =>
      rw [htv] at h
      dsimp only at h
      cases ha : addFiltersToQueryBuilder qb (pickEntries
          (updateSpecAt l inp.timeFilter fun s => { s with dbField := inp.groupBy })
          ([inp.timeFilter] ++ inp.secondaryFilter.toList)) values with
      | error e2 =>
        rw [ha] at h
        dsimp only at h
        simp only [Except.error.injEq] at h
        subst h
        exact addFilters_error_shape hcleanNew ha
      | ok p =>
        obtain ⟨qb2, vs⟩ := p
        rw [ha] at h
        dsimp only at h
        exact absurd h (by simp)
  · simp only [if_neg huca] at h
    cases htv : getTransformedValues l with
    | error e2 =>
      rw [htv] at h
      dsimp only at h
      simp only [Except.error.injEq] at h
      subst h
      exact Or.inl (getTransformedValues_error_shape htv)
    | ok values =>
      rw [htv] at h
      dsimp only at h
      cases ha : addFiltersToQueryBuilder qb l values with
      | error e2 =>
        rw [ha] at h
        dsimp only at h
        simp only [Except.error.injEq] at h
        subst h
        exact addFilters_error_shape hclean ha
      | ok p =>
        obtain ⟨qb2, vs⟩ := p
        rw [ha] at h
        dsimp only at h
        exact absurd h (by simp)

theorem historyMainQuery_error_shape {inp : HistoryQueryInput}
    {runQuery : QueryBuilder → List Row} {useOnly : Bool} {e : Err}
    {l : List (String × FilterSpec)}
    (hf : inp.filters = some l)
    (hclean : ∀ p ∈ l, p.2.query.isFn = false ∧ p.2.minValue = JVal.undef)
    (h : historyMainQuery inp runQuery useOnly = .error e) :
    (∃ m, e = Err.genericError m) ∨ (∃ m, e = Err.validationError m) := by
  unfold historyMainQuery at h
  by_cases hgb : (["hour", "day", "month"].contains inp.groupBy) = false
  · rw [if_pos hgb] at h
    simp only [Except.error.injEq] at h
    exact Or.inl ⟨_, h.symm⟩
  · rw [if_neg hgb] at h
    dsimp only at h
    split at h
    · rename_i e2 heq
      simp only [Except.error.injEq] at h
      subst h
      exact historyApplyFilters_error_shape hf hclean heq
    · exact absurd h (by simp)

/-- The claim C3 counterexample.  The time filter's lower bound `""` is falsy
though it lexicographically predates every date string, so with an active
author filter the retention guard does NOT fire: the call succeeds instead of
rejecting with the 400. -/
theorem history_retention_guard_counterexample :
    jsLt (getMinRangeValue specTimeFalsy.value) inpC3.retentionLimitDate = true
      ∧ useOnlyNonTimeRestrictedFiltersOf flC3 inpC3.timeFilter inpC3.secondaryFilter = false
      ∧ performHistoryQuery inpC3 runNoRows = .ok (metaEmpty10, some flC3) :=
  ⟨rfl, rfl, rfl⟩

/-- The claim C3 theorem as amended.  For a history call with a valid order
config whose filters carry the time-filter key and use only built-in filter
strategies without `minValue` (so no other stage can produce an
identically-worded error), the call rejects with the 400
"All filters are disabled before retentionLimitDate" exactly when the
effective lower time bound is truthy, predates `retentionLimitDate`, and some
filter beyond the time/secondary filters has a defined value. -/
theorem history_retention_guard_iff (inp : HistoryQueryInput)
    (runQuery : QueryBuilder → List Row) (l : List (String × FilterSpec)) (tspec : FilterSpec)
    (hord : orderConfigValid inp.orderConfig = true)
    (hf : inp.filters = some l)
    (ht : lookupEntry l inp.timeFilter = some tspec)
    (hclean : ∀ p ∈ l, p.2.query.isFn = false ∧ p.2.minValue = JVal.undef) :
    (performHistoryQuery inp runQuery =
        .error (.httpError 400
          ("All filters are disabled before " ++ jvalShow inp.retentionLimitDate)))
      ↔ ((getMinRangeValue tspec.value).truthy = true
          ∧ jsLt (getMinRangeValue tspec.value) inp.retentionLimitDate = true
          ∧ useOnlyNonTimeRestrictedFiltersOf l inp.timeFilter inp.secondaryFilter = false) := by
  have hguard : historyFiltersGuard inp = (if (getMinRangeValue tspec.value).truthy
      && jsLt (getMinRangeValue tspec.value) inp.retentionLimitDate
      && !useOnlyNonTimeRestrictedFiltersOf l inp.timeFilter inp.secondaryFilter then
        .error (.httpError 400
          ("All filters are disabled before " ++ jvalShow inp.retentionLimitDate))
      else .ok (useOnlyNonTimeRestrictedFiltersOf l inp.timeFilter inp.secondaryFilter)) := by
    unfold historyFiltersGuard
    rw [hf]
    dsimp only
    rw [checkFilters_ok_of_ne_nil (lookupEntry_some_ne_nil ht)]
    dsimp only
    rw [ht]
  constructor
  · intro h
    by_cases hcond : ((getMinRangeValue tspec.value).truthy
        && jsLt (getMinRangeValue tspec.value) inp.retentionLimitDate
        && !useOnlyNonTimeRestrictedFiltersOf l inp.timeFilter inp.secondaryFilter) = true
    · simp only [Bool.and_eq_true] at hcond
      obtain ⟨⟨hA, hB⟩, hC⟩ := hcond
      refine ⟨hA, hB, ?_⟩
      revert hC
      cases useOnlyNonTimeRestrictedFiltersOf l inp.timeFilter inp.secondaryFilter <;> simp
    · exfalso
      unfold performHistoryQuery at h
      rw [checkOrderConfig_ok hord] at h
      dsimp only at h
      rw [hguard, if_neg hcond] at h
      dsimp only at h
      cases hp : checkPaginationConfig inp.paginationConfig with
      | error e =>
        rw [hp] at h
        dsimp only at h
        simp only [Except.error.injEq] at h
        subst h
        unfold checkPaginationConfig at hp
        by_cases hv : paginationConfigValid inp.paginationConfig = true
        · rw [if_pos hv] at hp
          exact absurd hp (by simp)
        · rw [if_neg hv] at hp
          simp at hp
      | ok u =>
        rw [hp] at h
        dsimp only at h
        rcases historyMainQuery_error_shape hf hclean h with ⟨m, hm⟩ | ⟨m, hm⟩ <;> simp at hm
  · intro hcond
    obtain ⟨h1, h2, h3⟩ := hcond
    unfold performHistoryQuery
    rw [checkOrderConfig_ok hord]
    dsimp only
    rw [hguard, if_pos (by rw [h1, h2, h3]; rfl)]

/-- The claim C3 amended-theorem witness: a truthy lower bound `2019-01-01`
predating the 2020 retention limit with an active author filter fires the 400
rejection. -/
theorem history_retention_guard_witness :
    performHistoryQuery inpC3b runNoRows =
      .error (.httpError 400
        ("All filters are disabled before " ++ jvalShow inpC3b.retentionLimitDate)) :=
  (history_retention_guard_iff inpC3b runNoRows flC3b specTimeEarly rfl rfl rfl
    (by
      intro p hp
      simp only [flC3b, List.mem_cons, List.mem_singleton, List.not_mem_nil, or_false] at hp
      rcases hp with rfl | rfl
      · exact ⟨rfl, rfl⟩
      · exact ⟨rfl, rfl⟩)).mpr ⟨rfl, rfl, rfl⟩

/-- The claim C6 theorem.  With shape-valid order, filters and pagination
configs, a call with `field === groupBy` fails with the 422 unprocessable-
entity error whatever the database would answer — the error is produced
before any query is constructed or executed. -/
theorem aggregation_field_groupBy_conflict (inp : AggregationQueryInput)
    (runQuery : AggQuery → Except String (List Row)) (runCount : AggQuery → Except String Nat)
    (hord : orderConfigValid inp.orderConfig = true)
    (hflt : ∀ l, inp.filters = some l → l ≠ [])
    (hpag : paginationConfigValid inp.paginationConfig = true)
    (hfg : inp.field = some inp.groupBy) :
    performAggregationQuery inp runQuery runCount =
      .error (.httpError 422 (inp.groupBy ++ " cannot be field and groupBy at the same time")) := by
  unfold performAggregationQuery
  rw [checkOrderConfig_ok hord]
  dsimp only
  cases hfo : inp.filters with
  | none =>
    dsimp only
    rw [checkPaginationConfig_ok hpag]
    dsimp only
    rw [if_pos hfg]
  | some l =>
    dsimp only
    rw [checkFilters_ok_of_ne_nil (hflt l hfo)]
    dsimp only
    rw [checkPaginationConfig_ok hpag]
    dsimp only
    rw [if_pos hfg]

/-- The claim C6 witness: grouping by and aggregating `authorId` fails with
the 422 even against a database that would answer everything. -/
theorem aggregation_field_groupBy_conflict_witness :
    performAggregationQuery inpC6 runAggNoRows runAggZero =
      .error (.httpError 422 ("authorId" ++ " cannot be field and groupBy at the same time")) :=
  aggregation_field_groupBy_conflict inpC6 runAggNoRows runAggZero rfl
    (fun l hl => by simp [inpC6] at hl) rfl rfl

theorem lookupField_setEntry_self (r : Row) (k : String) (v : JVal) :
    lookupField (setEntry r k v) k = v := by
  simp [lookupField, lookupEntry_setEntry_self]

theorem lookupField_setEntry_ne (r : Row) (k k' : String) (v : JVal) (h : k' ≠ k) :
    lookupField (setEntry r k v) k' = lookupField r k' := by
  simp [lookupField, lookupEntry_setEntry_ne _ _ _ _ h]

theorem lookupEntry_removeEntry_ne {α : Type} (l : List (String × α)) (k k' : String)
    (h : k' ≠ k) : lookupEntry (removeEntry l k) k' = lookupEntry l k' := by
  induction l with
  | nil => rfl
  | cons hd t ih =>
    obtain ⟨k'', v⟩ := hd
    by_cases hk : k'' = k
    · subst hk
      have hdk : decide (((k'', v) : String × α).1 ≠ k'') = false := by simp
      simp only [removeEntry, List.filter_cons, hdk]
      rw [show lookupEntry ((k'', v) :: t) k' = lookupEntry t k' from by
        simp only [lookupEntry]
        rw [if_neg (fun hh => h hh.symm)]]
      simpa [removeEntry] using ih
    · have hdk : decide (((k'', v) : String × α).1 ≠ k) = true := by simp [hk]
      simp only [removeEntry, List.filter_cons, hdk]
      simp only [lookupEntry]
      by_cases hk2 : k'' = k'
      · rw [if_pos hk2, if_pos hk2]
      · rw [if_neg hk2, if_neg hk2]
        simpa [removeEntry] using ih

theorem lookupField_removeEntry_ne (r : Row) (k k' : String) (h : k' ≠ k) :
    lookupField (removeEntry r k) k' = lookupField r k' := by
  simp [lookupField, lookupEntry_removeEntry_ne _ _ _ h]

theorem opStep_lookup_ne (r : Row) (op k : String) (h : k ≠ op) :
    lookupField (opStep r op) k = lookupField r k := by
  unfold opStep
  by_cases hu : (lookupField r op).isUndef = true
  · rw [if_pos hu]
    exact lookupField_setEntry_ne _ _ _ _ h
  · rw [if_neg hu]

theorem opStep_lookup_self_not_undef (r : Row) (op : String) :
    (lookupField (opStep r op) op).isUndef = false := by
  unfold opStep
  by_cases hu : (lookupField r op).isUndef = true
  · rw [if_pos hu, lookupField_setEntry_self]
    rfl
  · rw [if_neg hu]
    simpa using hu

theorem opStep_lookup_self_undef (r : Row) (op : String)
    (h : lookupField r op = JVal.undef) :
    lookupField (opStep r op) op = JVal.null := by
  unfold opStep
  rw [if_pos (by rw [h]; rfl), lookupField_setEntry_self]

theorem opStep_lookup_self_num {r : Row} {op : String} {q : ℚ}
    (h : lookupField (opStep r op) op = JVal.num q) : lookupField r op = JVal.num q := by
  unfold opStep at h
  by_cases hu : (lookupField r op).isUndef = true
  · rw [if_pos hu, lookupField_setEntry_self] at h
    exact absurd h (by simp)
  · rwa [if_neg hu] at h

theorem roundDecimal_eq (x : ℚ) (p : Nat) :
    roundDecimal x p = ((round (x * (10 : ℚ) ^ p) : ℤ) : ℚ) / (10 : ℚ) ^ p := by
  unfold roundDecimal
  have hd : ((x.den : ℚ)) ≠ 0 := by exact_mod_cast x.den_nz
  have hround : round (x * (10 : ℚ) ^ p) =
      (2 * x.num * ((10 ^ p : ℕ) : ℤ) + (x.den : ℤ)) / ((2 * x.den : ℕ) : ℤ) := by
    rw [round_eq]
    have hxn : (x.num : ℚ) = x * (x.den : ℚ) := (div_eq_iff hd).mp (Rat.num_div_den x)
    have hx : x * (10 : ℚ) ^ p + 1 / 2 =
        (((2 * x.num * ((10 ^ p : ℕ) : ℤ) + (x.den : ℤ)) : ℤ) : ℚ) / ((2 * x.den : ℕ) : ℚ) := by
      have hden2 : ((2 * x.den : ℕ) : ℚ) ≠ 0 := by
        push_cast
        simp [hd]
      rw [eq_div_iff hden2]
      push_cast
      rw [hxn]
      ring
    rw [hx]
    exact Rat.floor_intCast_div_natCast _ _
  rw [hround, Rat.mkRat_eq_div]
  push_cast
  ring

theorem roundDecimal_idem (x : ℚ) (p : Nat) :
    roundDecimal (roundDecimal x p) p = roundDecimal x p := by
  have hp : ((10 : ℚ) ^ p) ≠ 0 := by positivity
  rw [roundDecimal_eq x p, roundDecimal_eq, div_mul_cancel₀ _ hp, round_intCast]

theorem countStep_lookup_ne (R : Row) (op : String) (h : op ≠ "count") :
    lookupField (if (lookupField R "count").truthy then
      setEntry R "count" (jsParseInt (lookupField R "count")) else R) op = lookupField R op := by
  split
  · exact lookupField_setEntry_ne _ _ _ _ h
  · rfl

theorem processRow_ops_defined (g : String) (p : Nat) (r : Row) :
    ∀ op ∈ (["avg", "sum", "min", "max"] : List String),
      (lookupField (processAggregationRow g p r) op).isUndef = false := by
  intro op hop
  simp only [processAggregationRow]
  fin_cases hop
  · rw [opStep_lookup_ne _ _ _ (by decide), opStep_lookup_ne _ _ _ (by decide),
      opStep_lookup_ne _ _ _ (by decide)]
    exact opStep_lookup_self_not_undef _ _
  · rw [opStep_lookup_ne _ _ _ (by decide), opStep_lookup_ne _ _ _ (by decide)]
    exact opStep_lookup_self_not_undef _ _
  · rw [opStep_lookup_ne _ _ _ (by decide)]
    exact opStep_lookup_self_not_undef _ _
  · exact opStep_lookup_self_not_undef _ _

theorem processRow_avg_rounded (g : String) (p : Nat) (r : Row) (q : ℚ)
    (h : lookupField (processAggregationRow g p r) "avg" = JVal.num q) :
    roundDecimal q p = q := by
  simp only [processAggregationRow] at h
  rw [opStep_lookup_ne _ _ _ (by decide), opStep_lookup_ne _ _ _ (by decide),
    opStep_lookup_ne _ _ _ (by decide)] at h
  have h5 := opStep_lookup_self_num h
  split at h5
  · rename_i q0 heq
    rw [lookupField_setEntry_self] at h5
    simp only [JVal.num.injEq] at h5
    rw [← h5]
    exact roundDecimal_idem q0 p
  · rename_i hnum
    exact absurd h5 (by exact fun hh => hnum q hh)

theorem processRow_op_null (g : String) (p : Nat) (r : Row) :
    ∀ op ∈ (["avg", "sum", "min", "max"] : List String),
      lookupField r op = JVal.undef →
        lookupField (processAggregationRow g p r) op = JVal.null := by
  intro op hop hab
  simp only [processAggregationRow]
  fin_cases hop
  · rw [opStep_lookup_ne _ _ _ (by decide), opStep_lookup_ne _ _ _ (by decide),
      opStep_lookup_ne _ _ _ (by decide)]
    apply opStep_lookup_self_undef
    split
    · rename_i q0 heq
      rw [countStep_lookup_ne _ _ (by decide), lookupField_removeEntry_ne _ _ _ (by decide),
        lookupField_setEntry_ne _ _ _ _ (by decide), lookupField_setEntry_ne _ _ _ _ (by decide),
        hab] at heq
      exact absurd heq (by simp)
    · rw [countStep_lookup_ne _ _ (by decide), lookupField_removeEntry_ne _ _ _ (by decide),
        lookupField_setEntry_ne _ _ _ _ (by decide), lookupField_setEntry_ne _ _ _ _ (by decide)]
      exact hab
  · rw [opStep_lookup_ne _ _ _ (by decide), opStep_lookup_ne _ _ _ (by decide)]
    apply opStep_lookup_self_undef
    rw [opStep_lookup_ne _ _ _ (by decide)]
    split
    · rename_i q0 heq
      rw [lookupField_setEntry_ne _ _ _ _ (by decide)]
      rw [countStep_lookup_ne _ _ (by decide), lookupField_removeEntry_ne _ _ _ (by decide),
        lookupField_setEntry_ne _ _ _ _ (by decide), lookupField_setEntry_ne _ _ _ _ (by decide)]
      exact hab
    · rw [countStep_lookup_ne _ _ (by decide), lookupField_removeEntry_ne _ _ _ (by decide),
        lookupField_setEntry_ne _ _ _ _ (by decide), lookupField_setEntry_ne _ _ _ _ (by decide)]
      exact hab
  · rw [opStep_lookup_ne _ _ _ (by decide)]
    apply opStep_lookup_self_undef
    rw [opStep_lookup_ne _ _ _ (by decide), opStep_lookup_ne _ _ _ (by decide)]
    split
    · rename_i q0 heq
      rw [lookupField_setEntry_ne _ _ _ _ (by decide)]
      rw [countStep_lookup_ne _ _ (by decide), lookupField_removeEntry_ne _ _ _ (by decide),
        lookupField_setEntry_ne _ _ _ _ (by decide), lookupField_setEntry_ne _ _ _ _ (by decide)]
      exact hab
    · rw [countStep_lookup_ne _ _ (by decide), lookupField_removeEntry_ne _ _ _ (by decide),
        lookupField_setEntry_ne _ _ _ _ (by decide), lookupField_setEntry_ne _ _ _ _ (by decide)]
      exact hab
  · apply opStep_lookup_self_undef
    rw [opStep_lookup_ne _ _ _ (by decide), opStep_lookup_ne _ _ _ (by decide),
      opStep_lookup_ne _ _ _ (by decide)]
    split
    · rename_i q0 heq
      rw [lookupField_setEntry_ne _ _ _ _ (by decide)]
      rw [countStep_lookup_ne _ _ (by decide), lookupField_removeEntry_ne _ _ _ (by decide),
        lookupField_setEntry_ne _ _ _ _ (by decide), lookupField_setEntry_ne _ _ _ _ (by decide)]
      exact hab
    · rw [countStep_lookup_ne _ _ (by decide), lookupField_removeEntry_ne _ _ _ (by decide),
        lookupField_setEntry_ne _ _ _ _ (by decide), lookupField_setEntry_ne _ _ _ _ (by decide)]
      exact hab

theorem aggTranslateDbError_ne_ok {α : Type} (f : Option String) (c : String) (x : α) :
    aggTranslateDbError f c ≠ .ok x := by
  unfold aggTranslateDbError
  split <;> simp

/-- The claim C7 theorem.  Every result row of a successful aggregation call
has all four numeric operator fields `avg`, `sum`, `min`, `max` present —
`null` when the underlying row had no such column (in particular when no
`field` was aggregated), never omitted — and a numeric `avg` is rounded to
exactly `avgPrecision` decimal digits (it is a fixed point of the rounding). -/
theorem aggregation_row_operator_fields (inp : AggregationQueryInput)
    (runQuery : AggQuery → Except String (List Row)) (runCount : AggQuery → Except String Nat)
    (meta : PaginationMeta)
    (h : performAggregationQuery inp runQuery runCount = .ok meta) :
    (∀ r ∈ meta.results, ∀ op ∈ (["avg", "sum", "min", "max"] : List String),
        (lookupField r op).isUndef = false)
      ∧ (∀ r ∈ meta.results, ∀ q : ℚ, lookupField r "avg" = JVal.num q →
          roundDecimal q inp.avgPrecision = q)
      ∧ (∀ row : Row, ∀ op ∈ (["avg", "sum", "min", "max"] : List String),
          lookupField row op = JVal.undef →
            lookupField (processAggregationRow inp.groupBy inp.avgPrecision row) op
              = JVal.null) := by
  refine ⟨?_, ?_, fun row => processRow_op_null inp.groupBy inp.avgPrecision row⟩
  all_goals
    unfold performAggregationQuery at h
  all_goals
    cases hc : checkOrderConfig inp.orderConfig with
    | error e =>
      rw [hc] at h
      exact absurd h (by simp)
    | ok u =>
      rw [hc] at h
      dsimp only at h
      cases hfo : inp.filters with
      | none =>
        rw [hfo] at h
        dsimp only at h
        cases hp : checkPaginationConfig inp.paginationConfig with
        | error e =>
          rw [hp] at h
          exact absurd h (by simp)
        | ok u2 =>
          rw [hp] at h
          dsimp only at h
          by_cases hfg : inp.field = some inp.groupBy
          · rw [if_pos hfg] at h
            exact absurd h (by simp)
          · rw [if_neg hfg] at h
            try dsimp only at h
            split at h
            · exact absurd h (aggTranslateDbError_ne_ok _ _ _)
            · exact absurd h (aggTranslateDbError_ne_ok _ _ _)
            · simp only [Except.ok.injEq] at h
              subst h
              intro r hr
              obtain ⟨row, hrow, rfl⟩ := List.mem_map.mp hr
              first
                | exact processRow_ops_defined inp.groupBy inp.avgPrecision row
                | exact fun q hq =>
                    processRow_avg_rounded inp.groupBy inp.avgPrecision row q hq
      | some l =>
        rw [hfo] at h
        dsimp only at h
        cases hcf : checkFilters l with
        | error e =>
          rw [hcf] at h
          exact absurd h (by simp)
        | ok u3 =>
          rw [hcf] at h
          dsimp only at h
          cases hp : checkPaginationConfig inp.paginationConfig with
          | error e =>
            rw [hp] at h
            exact absurd h (by simp)
          | ok u2 =>
            rw [hp] at h
            dsimp only at h
            by_cases hfg : inp.field = some inp.groupBy
            · rw [if_pos hfg] at h
              exact absurd h (by simp)
            · rw [if_neg hfg] at h
              try dsimp only at h
              cases htv : getTransformedValues l with
              | error e =>
                rw [htv] at h
                dsimp only at h
                exact absurd h (by simp)
              | ok values =>
                rw [htv] at h
                dsimp only at h
                split at h
                · exact absurd h (by simp)
                · split at h
                  · exact absurd h (aggTranslateDbError_ne_ok _ _ _)
                  · exact absurd h (aggTranslateDbError_ne_ok _ _ _)
                  · simp only [Except.ok.injEq] at h
                    subst h
                    intro r hr
                    obtain ⟨row, hrow, rfl⟩ := List.mem_map.mp hr
                    first
                      | exact processRow_ops_defined inp.groupBy inp.avgPrecision row
                      | exact fun q hq =>
                          processRow_avg_rounded inp.groupBy inp.avgPrecision row q hq

/-- The claim C7 witness: the single processed row has all four operator
fields defined and its avg `3.33` is a fixed point of rounding to two
digits. -/
theorem aggregation_row_operator_fields_witness :
    (lookupField rowC7 "avg").isUndef = false
      ∧ roundDecimal (mkRat 333 100) 2 = mkRat 333 100
      ∧ lookupField (processAggregationRow inpC7.groupBy inpC7.avgPrecision
          [("groupByField", JVal.str "b")]) "sum" = JVal.null := by
  have h := aggregation_row_operator_fields inpC7 runAggC7 runAggOne metaC7 rfl
  refine ⟨h.1 rowC7 ?_ "avg" ?_, h.2.1 rowC7 ?_ (mkRat 333 100) rfl, ?_⟩
  · exact List.mem_singleton.mpr rfl
  · decide
  · exact List.mem_singleton.mpr rfl
  · exact h.2.2 [("groupByField", JVal.str "b")] "sum" (by decide) rfl
